import Mathlib

/-!
Shallow embedding of the declarative-wgpu rendering core
(src/rendering/renderer.js, src/rendering/gpu-engine.js,
src/rendering/drawer.js) with proofs about its specification.

Modelling conventions:
* GPU objects (buffers, textures, samplers, bind groups, shader modules,
  pipelines) and JS object identities are handles: natural numbers drawn
  from a monotone allocation counter that is threaded through every
  creating call in source order.  Destroying an object appends its handle
  to a destruction log.
* Numeric buffer contents are the integer scalar sequences that the
  typed-array views of the source read and write; IEEE-754 bit patterns
  are below the abstraction, but every DataView write records the
  component type, the integer value and the little-endian flag exactly as
  issued by the source.
* JS rational arithmetic on element counts (byteLength / BYTES_PER_ELEMENT
  / size) is modelled as an exact fraction (JNum); a JS loop bounded by a
  rational bound runs ceil-many iterations, which the model reproduces.
* Asynchronous calls complete in issue order (the engine is
  single-threaded and cooperative); the one mid-flight observation the
  claims need, the synchronous prefix of GPUEngine.create, is modelled
  separately (createStart / guardOutcome).
-/

deriving instance DecidableEq for Except

namespace DWgpu

/-- Scalar component types.  Modelled from the spec: the Type enum lives in
src/enums.js, which is not under src/; the spec and the GPUTypeFormat
typedef list 8-, 16- and 32-bit signed/unsigned integers and 32-bit
floats. -/
inductive Ty where
  | u8 | i8 | u16 | i16 | u32 | i32 | f32
deriving DecidableEq, Repr

/-- TypeConstructor[t].BYTES_PER_ELEMENT of the corresponding typed array. -/
def byteWidth : Ty → Nat
  | .u8 | .i8 => 1
  | .u16 | .i16 => 2
  | .u32 | .i32 | .f32 => 4

/-- TypeFormat[t]: the bare scalar vertex-format tag.  Modelled from the
spec (src/enums.js is not under src/); the tags match the GPUTypeFormat
typedef of the repository. -/
def typeFormat : Ty → String
  | .u8 => "uint8"
  | .i8 => "sint8"
  | .u16 => "uint16"
  | .i16 => "sint16"
  | .u32 => "uint32"
  | .i32 => "sint32"
  | .f32 => "float32"

/-- A JS number produced by the source's divisions of integer quantities,
kept as an exact unnormalized fraction num/den (the source's values are
IEEE-754 doubles; integer arithmetic and division are exact for all
realistic magnitudes, so the exact-rational model is faithful there).
den = 0 encodes the JS division corners: num positive is +Infinity,
negative is -Infinity, zero is NaN. -/
structure JNum where
  num : Int
  den : Nat
deriving DecidableEq, Repr

/-- The JS number n. -/
def JNum.ofNat (n : Nat) : JNum := ⟨n, 1⟩

/-- Denotation into ℚ (0 for the den = 0 corners). -/
def JNum.toQ (a : JNum) : ℚ := mkRat a.num a.den

/-- JS strict equality of two such numbers: cross multiplication for real
fractions; equal infinities are equal; NaN equals nothing. -/
def JNum.eqb : JNum → JNum → Bool
  | ⟨n1, 0⟩, ⟨n2, 0⟩ => (0 < n1 ∧ 0 < n2) ∨ (n1 < 0 ∧ n2 < 0)
  | ⟨_, 0⟩, ⟨_, _ + 1⟩ => false
  | ⟨_, _ + 1⟩, ⟨_, 0⟩ => false
  | ⟨n1, d1⟩, ⟨n2, d2⟩ => n1 * d2 = n2 * d1

/-- JS comparison m < a for a natural m: +Infinity exceeds everything,
NaN and -Infinity nothing. -/
def JNum.gtNat (a : JNum) (m : Nat) : Bool :=
  match a with
  | ⟨n, 0⟩ => 0 < n
  | ⟨n, d + 1⟩ => (m : Int) * (d + 1 : Nat) < n

/-- Iteration count of a JS loop for (let i = 0; i < a; i++): the naturals
strictly below a, i.e. the ceiling for positive fractions (a positive
infinite bound would not terminate in JS; the model returns 0 there, a
corner no claim reaches). -/
def JNum.iter : JNum → Nat
  | ⟨_, 0⟩ => 0
  | ⟨n, d + 1⟩ => (n.toNat + d) / (d + 1)

/-- JS product k * a of a natural and such a number. -/
def JNum.mulNat (k : Nat) (a : JNum) : JNum := ⟨k * a.num, a.den⟩

/-- Usage errors thrown synchronously by the renderer. -/
inductive RenderErr where
  | illegalSize (size : Nat) (format : String)
  | sizeMismatch (values : List Int) (expected : JNum)
deriving DecidableEq, Repr

/-- Renderer.#typeToFormat (renderer.js:63-75): counts 1 and 3 with 8/16-bit
integer types throw a TypeError; count 1 returns the bare tag, any other
count appends the count. -/
def typeToFormat (type : Ty) (size : Nat) : Except RenderErr String :=
  if (size = 1 ∨ size = 3) ∧
      (type = .u8 ∨ type = .u16 ∨ type = .i8 ∨ type = .i16) then
    .error (.illegalSize size (typeFormat type))
  else if size = 1 then
    .ok (typeFormat type)
  else
    .ok (typeFormat type ++ "x" ++ toString size)

/-- A VertexTransferable (type.d.ts): binding location, component type,
component count (size), and values — modelled as the scalar sequence the
typed-array view reads, so the view's byteLength is
byteWidth type * values.length. -/
structure VertexAttr where
  location : Nat
  type : Ty
  size : Nat
  values : List Int
deriving DecidableEq, Repr

/-- One DataView write issued by Renderer.#chainArrays: component type,
value, and the little-endian flag (the source passes true on every
write). -/
structure VWrite where
  type : Ty
  value : Int
  le : Bool
deriving DecidableEq, Repr

/-- The element count of an attribute as the source computes it:
(values.byteLength / BYTES_PER_ELEMENT) / size.  The first division is
exact by construction of the values model; the second is the JS division
kept as an exact fraction. -/
def elemCnt (a : VertexAttr) : JNum := ⟨a.values.length, a.size⟩

/-- Renderer.#chainArrays (renderer.js:101-127): recompute len from the
first attribute, then for each logical element, each attribute in
descriptor order, each component, one little-endian DataView write of that
attribute's component type at the running offset (the offset advances by
the component byte width per write, so the write list in order determines
the byte layout).  A read out of range is modelled as 0; it cannot happen
when all element counts agree.  The empty-attribute case never reaches this
function (createVertexBuffer returns early). -/
def chainArrays (buffers : List VertexAttr) : List VWrite :=
  match buffers with
  | [] => []
  | b0 :: _ =>
    let len := (elemCnt b0).iter
    (List.range len).flatMap fun i =>
      buffers.flatMap fun b =>
        (List.range b.size).map fun k =>
          { type := b.type, value := b.values.getD (k + i * b.size) 0, le := true }

/-- A GPU buffer: its handle and its allocated byte size (a JS number,
because the source can compute a fractional size out of fractional element
counts). -/
structure Buf where
  id : Nat
  size : JNum
deriving DecidableEq, Repr

/-- One attribute of the composed vertex buffer layout. -/
structure VAttrOut where
  shaderLocation : Nat
  offset : Nat
  format : String
deriving DecidableEq, Repr

/-- Result of Renderer.#createVertexBuffer: buffer (none for an empty
descriptor list), layout attributes, stride, the returned size field
(the element count len), the allocated byte size (stride * len) and the
uploaded interleaved content. -/
structure VBResult where
  buffer : Option Buf
  attributes : List VAttrOut
  stride : Nat
  size : JNum
  byteSize : JNum
  data : List VWrite
deriving DecidableEq, Repr

/-- The per-attribute loop of Renderer.#createVertexBuffer
(renderer.js:298-312): for each descriptor check its element count against
len (rational comparison, exactly as JS), derive its format (which can
throw), record offset = running stride, and advance the stride. -/
def vbLoop (len : JNum) : List VertexAttr → Nat → Except RenderErr (List VAttrOut × Nat)
  | [], stride => .ok ([], stride)
  | d :: rest, stride =>
    if (elemCnt d).eqb len = false then
      .error (.sizeMismatch d.values (JNum.mulNat d.size len))
    else
      match typeToFormat d.type d.size with
      | .error e => .error e
      | .ok fmt =>
        match vbLoop len rest (stride + d.size * byteWidth d.type) with
        | .error e => .error e
        | .ok (outs, total) =>
          .ok ({ shaderLocation := d.location, offset := stride, format := fmt } :: outs,
               total)

/-- Renderer.#createVertexBuffer (renderer.js:273-327). -/
def createVertexBuffer (vd : List VertexAttr) (c : Nat) :
    Except RenderErr (VBResult × Nat) :=
  match vd with
  | [] =>
    .ok ({ buffer := none, attributes := [], stride := 0, size := JNum.ofNat 0,
           byteSize := JNum.ofNat 0, data := [] }, c)
  | d0 :: _ =>
    let len := elemCnt d0
    match vbLoop len vd 0 with
    | .error e => .error e
    | .ok (attrs, stride) =>
      .ok ({ buffer := some { id := c, size := JNum.mulNat stride len },
             attributes := attrs,
             stride := stride,
             size := len,
             byteSize := JNum.mulNat stride len,
             data := chainArrays vd }, c + 1)

/-- JS ToUint16 / ToUint32 coercion applied elementwise by
range.set(indices) on a Uint16Array / Uint32Array, for integer inputs. -/
def toUint (bpe : Nat) (v : Int) : Int := v.emod (2 ^ (8 * bpe))

/-- Result of Renderer.#createIndexBuffer: the allocated buffer, vertex
count, selected index width tag, the caller's index array after possible
in-place synthesis, the content stored into the mapped range, and whether
the no-indices warning was emitted. -/
structure IBResult where
  buffer : Buf
  vertexCount : Nat
  idxType : String
  indicesOut : List Int
  data : List Int
  warned : Bool
deriving DecidableEq, Repr

/-- Renderer.#createIndexBuffer (renderer.js:215-268): synthesize 0..size
with a warning when no indices are supplied; select Uint32 when the vertex
element count exceeds 65535, else Uint16; allocate
indices.length * BYTES_PER_ELEMENT bytes and store the indices through the
typed-array view (which coerces each value to the selected width). -/
def createIndexBuffer (indices : List Int) (size : JNum) (c : Nat) : IBResult × Nat :=
  let warned := indices.length = 0
  let indicesOut :=
    if indices.length = 0 then (List.range size.iter).map Int.ofNat else indices
  let wide := size.gtNat 65535
  let bpe := if wide then 4 else 2
  ({ buffer := { id := c, size := JNum.ofNat (indicesOut.length * bpe) },
     vertexCount := indicesOut.length,
     idxType := if wide then "uint32" else "uint16",
     indicesOut := indicesOut,
     data := indicesOut.map (toUint bpe),
     warned := warned }, c + 1)

/-- The global reference of a buffer slot.  id = none models a JS-falsy
(absent) id, as in the camera slots the repository authors with only
isCamera: true. -/
structure GlobalRef where
  id : Option String
  isCamera : Bool
  byteOffset : Nat
deriving DecidableEq, Repr

/-- A binding's resource, classified structurally as the source does
(a type field means buffer, an img field means texture, else sampler).
Sampler parameters play no role in any claim and are not recorded. -/
inductive Resource where
  | buffer (type : Ty) (size : Nat) (global : Option GlobalRef)
  | texture (img : String) (width height offsetX offsetY : Nat)
  | sampler
deriving DecidableEq, Repr

/-- A GPUBinding: declared stage and resource. -/
structure Binding where
  fragmentStage : Bool
  resource : Resource
deriving DecidableEq, Repr

/-- Renderer.#getBufferSize (renderer.js:49). -/
def getBufferSize : Resource → Nat
  | .buffer t s _ => byteWidth t * s
  | _ => 0

/-- Renderer.#getBufferLocalSize (renderer.js:56): a slot contributes its
byte size when it has no global reference, or when its global reference
has a falsy id; only a global reference with an id contributes 0. -/
def getBufferLocalSize (r : Resource) : Nat :=
  match r with
  | .buffer _ _ g =>
    match g with
    | none => getBufferSize r
    | some gr => if gr.id = none then getBufferSize r else 0
  | _ => 0

/-- The summand of the size accumulation of Renderer.#createUniformBuffer
(renderer.js:191-193): isTypeOfBuffer ? getBufferLocalSize : 0. -/
def bindingLocal (b : Binding) : Nat :=
  match b.resource with
  | .buffer _ _ _ => getBufferLocalSize b.resource
  | _ => 0

/-- The size accumulation loop of Renderer.#createUniformBuffer
(renderer.js:187-195): over every group and binding, add the local size of
buffer slots and 0 for the rest. -/
def uniformSize (groups : List (List Binding)) : Nat :=
  groups.foldl (fun s g => g.foldl (fun s b => s + bindingLocal b) s) 0

/-- Renderer.#createUniformBuffer (renderer.js:177-208): returns undefined
for an empty group list, else allocates one buffer of the accumulated
size. -/
def createUniformBuffer (groups : List (List Binding)) (c : Nat) : Option Buf × Nat :=
  if groups.length = 0 then (none, c)
  else (some { id := c, size := JNum.ofNat (uniformSize groups) }, c + 1)

/-- Per-binding uniform metadata recorded by Renderer.#createBindGroup:
offset/size/type for a local value slot, width/height/texture handle for a
texture slot, nothing for a sampler slot.  Global value slots record no
metadata (the source pushes nothing for them). -/
inductive UDesc where
  | buf (offset size : Nat) (type : Ty)
  | tex (width height : Nat) (texture : Nat)
  | smp
deriving DecidableEq, Repr

/-- uniforms[i].push(d) of the source: append d to the i-th bucket.  An
out-of-range index (only reachable when an earlier group is empty, where
the source would crash) is modelled as a no-op. -/
def updAt : List (List UDesc) → Nat → UDesc → List (List UDesc)
  | [], _, _ => []
  | g :: gs, 0, d => (g ++ [d]) :: gs
  | g :: gs, n + 1, d => g :: updAt gs n d

/-- The per-binding body of Renderer.#createBindGroup (renderer.js:355-449):
push a fresh bucket onto uniforms, then for a local value slot record its
offset and advance the shared offset; for a global or camera slot bind the
global buffer (no metadata, no offset); for a texture slot create a texture
handle sized to the cropped image; for a sampler slot create a sampler
handle. -/
def bgBinding (i : Nat) (st : List (List UDesc) × Nat × Nat) (b : Binding) :
    List (List UDesc) × Nat × Nat :=
  let uniforms := st.1 ++ [[]]
  let offset := st.2.1
  let c := st.2.2
  match b.resource with
  | .buffer t s g =>
    let size := byteWidth t * s
    match g with
    | some _ => (uniforms, offset, c)
    | none => (updAt uniforms i (.buf offset size t), offset + size, c)
  | .texture _ w h ox oy =>
    (updAt uniforms i (.tex (w - ox) (h - oy) c), offset, c + 1)
  | .sampler =>
    (updAt uniforms i .smp, offset, c + 1)

/-- The group loop of Renderer.#createBindGroup: process the bindings of
each group, then create the group's bind-group handle. -/
def bgGroups : List (List Binding) → Nat → List (List UDesc) → Nat → Nat →
    List Nat × List (List UDesc) × Nat
  | [], _, uniforms, _, c => ([], uniforms, c)
  | g :: gs, i, uniforms, offset, c =>
    let st := g.foldl (bgBinding i) (uniforms, offset, c)
    let rec2 := bgGroups gs (i + 1) st.1 st.2.1 (st.2.2 + 1)
    (st.2.2 :: rec2.1, rec2.2.1, rec2.2.2)

/-- Renderer.#createBindGroup (renderer.js:335-464): empty group list gives
no bind groups and no metadata; otherwise run the group loop from group 0
with an empty uniforms array and offset 0. -/
def createBindGroup (groups : List (List Binding)) (c : Nat) :
    List Nat × List (List UDesc) × Nat :=
  if groups.length = 0 then ([], [], c)
  else bgGroups groups 0 [] 0 c

/-- Renderer.#createGroupLayout (renderer.js:143-170): one bind-group-layout
handle per group. -/
def createGroupLayout (groups : List (List Binding)) (c : Nat) : Nat :=
  c + groups.length

/-- A GPUCompilableProgram (type.d.ts): shader code, optional topology /
cull mode / entry points, bind groups, vertex descriptor and indices. -/
structure Program where
  code : String
  topology : Option String
  cullMode : Option String
  vertexEntryPoint : Option String
  fragmentEntryPoint : Option String
  groups : List (List Binding)
  vertexDescriptor : List VertexAttr
  indices : List Int
deriving DecidableEq, Repr

/-- A GPUExecutable as returned by createProgram / cloneProgram.  oid is
the JS object identity of the executable literal. -/
structure Exec where
  oid : Nat
  z : Nat
  idxType : String
  vertexCount : Nat
  indexBuffer : Buf
  pipeline : Nat
  bindGroups : List Nat
  uniforms : List (List UDesc)
  uniformBuffer : Option Buf
  vertexBuffer : Option Buf
  indexData : List Int
deriving DecidableEq, Repr

/-- Renderer.createProgram (renderer.js:470-586), in source order: group
layouts, uniform buffer, vertex buffer (fallible), bind groups, index
buffer, shader module, pipeline layout, render pipeline, then the
executable literal.  The returned z is the renderer's incrementing
defaultZ. -/
def createProgram (p : Program) (c z : Nat) : Except RenderErr (Exec × Nat × Nat) :=
  let c1 := createGroupLayout p.groups c
  let (ub, c2) := createUniformBuffer p.groups c1
  match createVertexBuffer p.vertexDescriptor c2 with
  | .error e => .error e
  | .ok (vb, c3) =>
    let bg := createBindGroup p.groups c3
    let (ib, c5) := createIndexBuffer p.indices vb.size bg.2.2
    .ok ({ oid := c5 + 3,
           z := z,
           idxType := ib.idxType,
           vertexCount := ib.vertexCount,
           indexBuffer := ib.buffer,
           pipeline := c5 + 2,
           bindGroups := bg.1,
           uniforms := bg.2.1,
           uniformBuffer := ub,
           vertexBuffer := vb.buffer,
           indexData := ib.data }, c5 + 4, z + 1)

/-- Renderer.cloneProgram (renderer.js:593-668): recompute only the group
layouts, a fresh per-entity uniform buffer and fresh bind groups; spread
the existing executable for everything else (pipeline, vertex and index
buffers, counts, index data), with a fresh object identity and z. -/
def cloneProgram (p : Program) (ex : Exec) (c z : Nat) : Exec × Nat × Nat :=
  let c1 := createGroupLayout p.groups c
  let (ub, c2) := createUniformBuffer p.groups c1
  let bg := createBindGroup p.groups c2
  ({ ex with oid := bg.2.2,
             z := z,
             bindGroups := bg.1,
             uniforms := bg.2.1,
             uniformBuffer := ub }, bg.2.2 + 1, z + 1)

/-- Association-list lookup, modelling Map.prototype.get (keys unique). -/
def assocGet {α β : Type} [DecidableEq α] : List (α × β) → α → Option β
  | [], _ => none
  | (a, b) :: rest, k => if a = k then some b else assocGet rest k

/-- Association-list insertion, modelling Map.prototype.set: overwrite in
place, else append. -/
def assocSet {α β : Type} [DecidableEq α] : List (α × β) → α → β → List (α × β)
  | [], k, v => [(k, v)]
  | (a, b) :: rest, k, v =>
    if a = k then (k, v) :: rest else (a, b) :: assocSet rest k v

/-- Association-list deletion, modelling Map.prototype.delete. -/
def assocDel {α β : Type} [DecidableEq α] : List (α × β) → α → List (α × β)
  | [], _ => []
  | (a, b) :: rest, k => if a = k then rest else (a, b) :: assocDel rest k

/-- GPUEngine.#attribToString (gpu-engine.js:90-97): write each attribute's
comma-joined values into a location-indexed array (later attributes at the
same location overwrite), then join the present entries in location order
with a slash; empty input yields the empty string. -/
def attribToString (attrib : List VertexAttr) : String :=
  let m := attrib.foldl
    (fun m b => assocSet m b.location (String.intercalate "," (b.values.map toString))) []
  let maxLoc := (m.map Prod.fst).foldl max 0
  let present := (List.range (maxLoc + 1)).filterMap (fun i => assocGet m i)
  match present with
  | [] => ""
  | s :: rest => rest.foldl (fun p v => p ++ "/" ++ v) s

/-- GPUEngine.#getShaderId (gpu-engine.js:103-109) concatenated with
GPUEngine.#attribToString as at the call site (gpu-engine.js:193): the
structural cache key.  JS treats an empty-string override as falsy; the
model uses Option for absent overrides. -/
def shaderKey (p : Program) : String :=
  p.code ++ p.cullMode.getD "back" ++ p.topology.getD "triangle-list" ++
  p.fragmentEntryPoint.getD "fragment_main" ++ p.vertexEntryPoint.getD "vertex_main" ++
  attribToString p.vertexDescriptor

/-- The value an update call carries (number[] | string). -/
inductive UpdRes where
  | img (url : String)
  | vals (v : List Int)
deriving DecidableEq, Repr

/-- A deferred call record ({ method, args }) pushed onto GPUEngine.#events
while a frame is busy. -/
inductive Event where
  | create (id : String) (p : Program)
  | freeEntity (id : String)
  | addToScene (id : String)
  | removeFromScene (id : String)
  | update (id : String) (group binding : Nat) (resource : UpdRes) (z : Nat)
  | createGlobalBuffer (bufferId : String) (type : Option Ty) (size : Nat)
  | writeGlobalBuffer (bufferId : String) (byteOffset : Nat) (type : Ty) (values : Nat)
  | createCamera (sceneId cameraId : Nat) (values : Nat)
  | updateCamera (sceneId cameraId : Nat) (values : Nat)
deriving DecidableEq, Repr

/-- Errors surfaced by engine calls.  jsCrash marks a property access on
undefined that would throw a TypeError in the source; rejectedPending marks
awaiting a pending-map promise that already rejected (in the sequential
model the only resting states with a pending id are those whose creation
failed). -/
inductive EngErr where
  | idInUse (id : String)
  | noEntity (id : String)
  | globalExists (id : String)
  | noGlobal (id : String)
  | noScene (sceneId : Nat)
  | noCamera (cameraId : Nat)
  | render (e : RenderErr)
  | jsCrash
  | rejectedPending (id : String)
deriving DecidableEq, Repr

/-- A GPUExecutableRefCounter: the shared executable's object identity and
the reference count. -/
structure RefEntry where
  oid : Nat
  count : Int
deriving DecidableEq, Repr

/-- The state of GPUEngine + Renderer + Drawer.  heap is the JS object
store for executables (object identity ↦ value), so that shared references
(idExecMap, codeExecMap, the draw list) alias the same object.  destroyed
logs the handles passed to .destroy() in call order. -/
structure EngineState where
  heap : List (Nat × Exec)
  idExecMap : List (String × Nat × String)
  isPending : List String
  codeExecMap : List (String × RefEntry)
  globalBuffers : List (String × Buf)
  cameras : List (Nat × List (Nat × Nat))
  drawList : List Nat
  events : List Event
  inExecution : Bool
  isBusy : Bool
  ctr : Nat
  zctr : Nat
  destroyed : List Nat
deriving DecidableEq, Repr

/-- The fresh engine right after GPUEngine.create. -/
def initState : EngineState :=
  { heap := [], idExecMap := [], isPending := [], codeExecMap := [],
    globalBuffers := [], cameras := [], drawList := [], events := [],
    inExecution := false, isBusy := false, ctr := 0, zctr := 0, destroyed := [] }

/-- Busy-path behaviour shared by every mutating call: push the call record
and return with no side effect. -/
def queueEvent (s : EngineState) (e : Event) : EngineState × Option EngErr :=
  ({ s with events := s.events ++ [e] }, none)

/-- GPUEngine.create (gpu-engine.js:179-221).  On the fresh-compile path
the id is put into isPending before the await and deleted after it; when
compilation throws, the delete is never reached.  On the clone path nothing
is recorded before the await. -/
def engineCreate (s : EngineState) (id : String) (p : Program) :
    EngineState × Option EngErr :=
  if s.isBusy then queueEvent s (.create id p)
  else if (assocGet s.idExecMap id).isSome then (s, some (.idInUse id))
  else
    let sid := shaderKey p
    match assocGet s.codeExecMap sid with
    | some ref =>
      match assocGet s.heap ref.oid with
      | none => (s, some .jsCrash)
      | some ex =>
        let cl := cloneProgram p ex s.ctr s.zctr
        ({ s with heap := assocSet s.heap cl.1.oid cl.1,
                  idExecMap := assocSet s.idExecMap id (cl.1.oid, sid),
                  codeExecMap := assocSet s.codeExecMap sid
                    { ref with count := ref.count + 1 },
                  ctr := cl.2.1, zctr := cl.2.2 }, none)
    | none =>
      match createProgram p s.ctr s.zctr with
      | .error e =>
        ({ s with isPending := id :: s.isPending }, some (.render e))
      | .ok (ex, c', z') =>
        ({ s with heap := assocSet s.heap ex.oid ex,
                  idExecMap := assocSet s.idExecMap id (ex.oid, sid),
                  codeExecMap := assocSet s.codeExecMap sid { oid := ex.oid, count := 1 },
                  isPending := s.isPending.erase id,
                  ctr := c', zctr := z' }, none)

/-- The guard shared by freeEntity / addToScene / removeFromScene / update
(gpu-engine.js:236-243, 340-347, 366-373, 396-403) at a resting state:
known ids proceed; unknown pending ids await the stored promise, which in
the sequential model has already rejected; otherwise throw. -/
def pendingGuard (s : EngineState) (id : String) : Option EngErr :=
  if (assocGet s.idExecMap id).isSome then none
  else if s.isPending.contains id then some (.rejectedPending id)
  else some (.noEntity id)

/-- Drawer z of an entity (Drawer.sort comparator reads entity.z from the
shared object). -/
def zOf (s : EngineState) (oid : Nat) : Int :=
  match assocGet s.heap oid with
  | some ex => (ex.z : Int)
  | none => 0

/-- Drawer.sort (drawer.js:215-217): the source sorts with the comparator
(a, b) => a.z - b.z, a stable ascending sort by z (Array.prototype.sort is
required to be stable); the stable ascending reordering of a list is
unique, and insertionSort with the reflexive order computes it. -/
def sortDraw (s : EngineState) (l : List Nat) : List Nat :=
  l.insertionSort (fun a b => zOf s a ≤ zOf s b)

/-- GPUEngine.addToScene (gpu-engine.js:330-351): push the executable onto
the drawer's list, then sort. -/
def engineAddToScene (s : EngineState) (id : String) : EngineState × Option EngErr :=
  if s.isBusy then queueEvent s (.addToScene id)
  else match pendingGuard s id with
  | some e => (s, some e)
  | none =>
    match assocGet s.idExecMap id with
    | none => (s, some .jsCrash)
    | some (oid, _) =>
      ({ s with drawList := sortDraw s (s.drawList ++ [oid]) }, none)

/-- GPUEngine.removeFromScene (gpu-engine.js:357-376): Drawer.remove splices
out the first entry identical to the entity's executable. -/
def engineRemoveFromScene (s : EngineState) (id : String) : EngineState × Option EngErr :=
  if s.isBusy then queueEvent s (.removeFromScene id)
  else match pendingGuard s id with
  | some e => (s, some e)
  | none =>
    match assocGet s.idExecMap id with
    | none => (s, some .jsCrash)
    | some (oid, _) =>
      ({ s with drawList := s.drawList.erase oid }, none)

/-- Texture handles recorded in a shared uniform table, in iteration order
of the destruction loop of freeEntity (gpu-engine.js:259-267). -/
def uniformTextures (unis : List (List UDesc)) : List Nat :=
  unis.flatMap fun g =>
    g.filterMap fun d =>
      match d with
      | .tex _ _ t => some t
      | _ => none

/-- GPUEngine.freeEntity (gpu-engine.js:227-271), in source order:
removeFromScene, decrement the shared refcount, Drawer.remove again,
destroy ref.executable.uniformBuffer — the shared entry holder's uniform
buffer, not the freed entity's own — then, when the count reached zero,
destroy the shared index buffer, vertex buffer and recorded textures and
drop the shared entry; finally drop the id.  A .destroy() on a missing
(undefined) buffer crashes, aborting the remaining steps. -/
def engineFreeEntity (s : EngineState) (id : String) : EngineState × Option EngErr :=
  if s.isBusy then queueEvent s (.freeEntity id)
  else match pendingGuard s id with
  | some e => (s, some e)
  | none =>
    match assocGet s.idExecMap id with
    | none => (s, some .jsCrash)
    | some (oid, sid) =>
      let s1 := { s with drawList := s.drawList.erase oid }
      match assocGet s1.codeExecMap sid with
      | none => (s1, some .jsCrash)
      | some ref =>
        let newCount := ref.count - 1
        let s2 := { s1 with codeExecMap := assocSet s1.codeExecMap sid
                              { ref with count := newCount },
                            drawList := s1.drawList.erase oid }
        match assocGet s2.heap ref.oid with
        | none => (s2, some .jsCrash)
        | some rex =>
          match rex.uniformBuffer with
          | none => (s2, some .jsCrash)
          | some ub =>
            let s3 := { s2 with destroyed := s2.destroyed ++ [ub.id] }
            if newCount ≤ 0 then
              match rex.vertexBuffer with
              | none =>
                ({ s3 with destroyed := s3.destroyed ++ [rex.indexBuffer.id] },
                 some .jsCrash)
              | some vb =>
                ({ s3 with
                     destroyed := s3.destroyed ++ [rex.indexBuffer.id, vb.id] ++
                       uniformTextures rex.uniforms,
                     codeExecMap := assocDel s3.codeExecMap sid,
                     idExecMap := assocDel s3.idExecMap id }, none)
            else
              ({ s3 with idExecMap := assocDel s3.idExecMap id }, none)

/-- GPUEngine.update (gpu-engine.js:386-410): set the entity's z on the
shared object, re-sort the draw list, then updateBinding (a GPU write, not
tracked by the model). -/
def engineUpdate (s : EngineState) (id : String) (group binding : Nat)
    (resource : UpdRes) (z : Nat) : EngineState × Option EngErr :=
  if s.isBusy then queueEvent s (.update id group binding resource z)
  else match pendingGuard s id with
  | some e => (s, some e)
  | none =>
    match assocGet s.idExecMap id with
    | none => (s, some .jsCrash)
    | some (oid, _) =>
      match assocGet s.heap oid with
      | none => (s, some .jsCrash)
      | some ex =>
        let s1 := { s with heap := assocSet s.heap oid { ex with z := z } }
        ({ s1 with drawList := sortDraw s1 s1.drawList }, none)

/-- Modelled from the spec: DEFAULT_CAMERA_BUFFER_ID is exported by
src/enums.js, which is not under src/; the spec only requires a fixed name
for the shared camera buffer. -/
def defaultCameraBufferId : String := "default-camera-buffer-id"

/-- GPUEngine.createGlobalBuffer / Renderer.createGlobalBuffer
(gpu-engine.js:418-432, renderer.js:675-698): fails when the name exists;
a null component type means the size is raw bytes. -/
def engineCreateGlobalBuffer (s : EngineState) (bufferId : String)
    (type : Option Ty) (size : Nat) : EngineState × Option EngErr :=
  if s.isBusy then queueEvent s (.createGlobalBuffer bufferId type size)
  else if (assocGet s.globalBuffers bufferId).isSome then
    (s, some (.globalExists bufferId))
  else
    let bytes : Nat := match type with | some t => size * byteWidth t | none => size
    ({ s with globalBuffers := assocSet s.globalBuffers bufferId
                { id := s.ctr, size := JNum.ofNat bytes },
              ctr := s.ctr + 1 }, none)

/-- GPUEngine.writeGlobalBuffer (gpu-engine.js:442-458): a priority write
skips the busy queue; the write itself is a GPU queue write, untracked.
Note the queued record drops the priority flag, exactly as the source's
args array does. -/
def engineWriteGlobalBuffer (s : EngineState) (bufferId : String) (byteOffset : Nat)
    (type : Ty) (values : Nat) (priority : Bool) : EngineState × Option EngErr :=
  if ¬priority ∧ s.isBusy then
    queueEvent s (.writeGlobalBuffer bufferId byteOffset type values)
  else if (assocGet s.globalBuffers bufferId).isNone then (s, some (.noGlobal bufferId))
  else (s, none)

/-- GPUEngine.createCamera (gpu-engine.js:465-481): on the first camera,
create and fill the default camera global buffer; then record the camera in
the scene table (Drawer.addCamera). -/
def engineCreateCamera (s : EngineState) (sceneId cameraId : Nat) (values : Nat) :
    EngineState × Option EngErr :=
  if s.isBusy then queueEvent s (.createCamera sceneId cameraId values)
  else
    let s1 :=
      if (assocGet s.globalBuffers defaultCameraBufferId).isNone then
        { s with globalBuffers := assocSet s.globalBuffers defaultCameraBufferId
                   { id := s.ctr, size := JNum.ofNat (16 * byteWidth .f32) },
                 ctr := s.ctr + 1 }
      else s
    let scene := (assocGet s1.cameras sceneId).getD []
    ({ s1 with cameras := assocSet s1.cameras sceneId (assocSet scene cameraId values) },
     none)

/-- GPUEngine.updateCamera / Drawer.updateCamera (gpu-engine.js:488-499,
drawer.js:274-287): fails when the scene or the camera is unknown. -/
def engineUpdateCamera (s : EngineState) (sceneId cameraId : Nat) (values : Nat) :
    EngineState × Option EngErr :=
  if s.isBusy then queueEvent s (.updateCamera sceneId cameraId values)
  else match assocGet s.cameras sceneId with
  | none => (s, some (.noScene sceneId))
  | some scene =>
    if (assocGet scene cameraId).isNone then (s, some (.noCamera cameraId))
    else ({ s with cameras := assocSet s.cameras sceneId (assocSet scene cameraId values) },
          none)

/-- Replaying one queued record: this[method](...args)
(gpu-engine.js:295). -/
def dispatch (s : EngineState) : Event → EngineState × Option EngErr
  | .create id p => engineCreate s id p
  | .freeEntity id => engineFreeEntity s id
  | .addToScene id => engineAddToScene s id
  | .removeFromScene id => engineRemoveFromScene s id
  | .update id g b r z => engineUpdate s id g b r z
  | .createGlobalBuffer bid t sz => engineCreateGlobalBuffer s bid t sz
  | .writeGlobalBuffer bid off t v => engineWriteGlobalBuffer s bid off t v false
  | .createCamera sc cam v => engineCreateCamera s sc cam v
  | .updateCamera sc cam v => engineUpdateCamera s sc cam v

/-- The replay loop over the events array (gpu-engine.js:294-296).  The
array itself is never emptied by the source.  An awaited call that throws
rejects the async tick, aborting the rest of the loop. -/
def drain : List Event → EngineState → EngineState × Option EngErr
  | [], s => (s, none)
  | e :: es, s =>
    match dispatch s e with
    | (s', none) => drain es s'
    | (s', some err) => (s', some err)

/-- The part of a tick after FrameDrawer.draw (gpu-engine.js:289-298): if
the running flag was cleared, return — leaving isBusy set.  Otherwise clear
isBusy and replay the events array (which the source never empties).  The
boolean reports whether requestAnimationFrame reschedules the loop. -/
def tickTail (s : EngineState) : EngineState × Bool :=
  if ¬s.inExecution then (s, false)
  else
    let s1 := { s with isBusy := false }
    match drain s1.events s1 with
    | (s2, none) => (s2, true)
    | (s2, some _) => (s2, false)

/-- One tick of the frame loop (gpu-engine.js:285-299): set isBusy, run
FrameDrawer.draw (command recording and submission only — the registry
state is unchanged), then the tail. -/
def tick (s : EngineState) : EngineState × Bool :=
  tickTail { s with isBusy := true }

/-- GPUEngine.draw (gpu-engine.js:281-303): idempotent while running; else
set the running flag and start the first tick. -/
def drawCall (s : EngineState) : EngineState × Bool :=
  if s.inExecution then (s, false)
  else tick { s with inExecution := true }

/-- GPUEngine.stop (gpu-engine.js:312-314). -/
def stopCall (s : EngineState) : EngineState :=
  { s with inExecution := false }

/-- The synchronous prefix of GPUEngine.create: the state other calls
observe while the compilation or clone promise is in flight.  The fresh
path has already put the id into isPending; the clone path has recorded
nothing. -/
def createStart (s : EngineState) (id : String) (p : Program) : EngineState :=
  if s.isBusy then { s with events := s.events ++ [.create id p] }
  else if (assocGet s.idExecMap id).isSome then s
  else if (assocGet s.codeExecMap (shaderKey p)).isSome then s
  else { s with isPending := id :: s.isPending }

/-- How the shared guard of freeEntity / addToScene / update /
removeFromScene classifies an id. -/
inductive GuardOutcome where
  | queued
  | proceeds
  | waits
  | unknownId
deriving DecidableEq, Repr

/-- The guard of freeEntity / addToScene / update / removeFromScene
(gpu-engine.js:236-243 and clones): queued when busy; known ids proceed;
ids found in isPending await the in-flight creation; all others throw the
unknown-id ReferenceError. -/
def guardOutcome (s : EngineState) (id : String) : GuardOutcome :=
  if s.isBusy then .queued
  else if (assocGet s.idExecMap id).isSome then .proceeds
  else if s.isPending.contains id then .waits
  else .unknownId

/-! Specification-side definitions: these follow the words of the spec and
its claims, to be compared with the definitions translated from the
source. -/

/-- The claim's sizing rule (claim C4 / spec §4.1): sum
component_count × component_byte_width over exactly the buffer slots that
are not flagged global. -/
def specNonGlobalSize (groups : List (List Binding)) : Nat :=
  (groups.flatten.map fun b =>
    match b.resource with
    | .buffer t n none => byteWidth t * n
    | _ => 0).sum

/-- The amended sizing rule forced by the code: buffer slots contribute
component_count × component_byte_width unless they carry a global reference
with a buffer id; a global reference without an id — the camera-flagged
slot as the repository authors it — still contributes. -/
def amendedUniformSize (groups : List (List Binding)) : Nat :=
  (groups.flatten.map fun b =>
    match b.resource with
    | .buffer t n none => byteWidth t * n
    | .buffer t n (some gr) => if gr.id = none then byteWidth t * n else 0
    | _ => 0).sum

/-- Selector for the buffer slots that receive a local offset: those with
no global reference at all. -/
def slotSel (b : Binding) : Option (Ty × Nat) :=
  match b.resource with
  | .buffer t n none => some (t, n)
  | _ => none

/-- The buffer slots that receive a local offset, in group-then-binding
order. -/
def localBufSlots (groups : List (List Binding)) : List (Ty × Nat) :=
  groups.flatten.filterMap slotSel

/-- Combined byte size of a run of value slots. -/
def sizesSum (l : List (Ty × Nat)) : Nat :=
  (l.map fun p => byteWidth p.1 * p.2).sum

/-- Consecutive packing of value slots from a starting offset: each slot's
offset is the running sum of the byte sizes before it. -/
def packDescs : Nat → List (Ty × Nat) → List UDesc
  | _, [] => []
  | off, (t, n) :: rest =>
    .buf off (byteWidth t * n) t :: packDescs (off + byteWidth t * n) rest

/-- Selector keeping only value-slot descriptors. -/
def bufSel (d : UDesc) : Option UDesc :=
  match d with
  | .buf _ _ _ => some d
  | _ => none

/-- The value-slot descriptors of a uniform table, flattened in creation
order. -/
def bufDescs (unis : List (List UDesc)) : List UDesc :=
  unis.flatten.filterMap bufSel

/-- The spec's stride: sum of component_count × byte_width over the
attributes in descriptor order. -/
def strideOf (attrs : List VertexAttr) : Nat :=
  (attrs.map fun a => a.size * byteWidth a.type).sum

/-- The spec's vertex layout: each attribute's offset is the running stride
before it; count 1 uses the bare scalar tag, other counts append the
count. -/
def attrLayout (st : Nat) : List VertexAttr → List VAttrOut
  | [] => []
  | a :: rest =>
    { shaderLocation := a.location, offset := st,
      format := if a.size = 1 then typeFormat a.type
                else typeFormat a.type ++ "x" ++ toString a.size } ::
    attrLayout (st + a.size * byteWidth a.type) rest

/-- The components of one logical element of one attribute, as little-endian
writes of that attribute's component type. -/
def elementSlice (a : VertexAttr) (i : Nat) : List VWrite :=
  ((a.values.drop (i * a.size)).take a.size).map
    fun v => { type := a.type, value := v, le := true }

/-- The claim's element-major interleaving: for each element, for each
attribute, for each component, one value. -/
def interleaved (attrs : List VertexAttr) (len : Nat) : List VWrite :=
  (List.range len).flatMap fun i => attrs.flatMap fun a => elementSlice a i

/-- The successful composition result of the amended claim C5, as one
record: buffer at the given handle, byte size stride × len, offsets the
running stride, returned element count len, element-major content. -/
def vbExpected (attrs : List VertexAttr) (a0 : VertexAttr) (len c : Nat) : VBResult :=
  { buffer := some ⟨c, JNum.mulNat (strideOf attrs) (elemCnt a0)⟩,
    attributes := attrLayout 0 attrs,
    stride := strideOf attrs,
    size := elemCnt a0,
    byteSize := JNum.mulNat (strideOf attrs) (elemCnt a0),
    data := interleaved attrs len }

/-- The illegal component-type/count combinations of claim C7. -/
def illegalCombo (a : VertexAttr) : Prop :=
  (a.size = 1 ∨ a.size = 3) ∧
  (a.type = .u8 ∨ a.type = .u16 ∨ a.type = .i8 ∨ a.type = .i16)

instance (a : VertexAttr) : Decidable (illegalCombo a) := by
  unfold illegalCombo; infer_instance

/-! Concrete fixtures used by counterexamples and demonstration runs. -/

/-- A small valid program: one local f32[4] uniform slot, one f32 scalar
attribute with three elements, explicit indices. -/
def progW : Program :=
  { code := "sh", topology := none, cullMode := none, vertexEntryPoint := none,
    fragmentEntryPoint := none,
    groups := [[{ fragmentStage := false, resource := .buffer .f32 4 none }]],
    vertexDescriptor := [{ location := 0, type := .f32, size := 1, values := [1, 2, 3] }],
    indices := [0, 1, 2] }

/-- A degenerate but accepted program: no bind groups, no vertex
attributes, no indices. -/
def progE : Program :=
  { code := "sc", topology := none, cullMode := none, vertexEntryPoint := none,
    fragmentEntryPoint := none, groups := [], vertexDescriptor := [], indices := [] }

/-- One bind group holding only a camera-flagged global f32[16] slot,
exactly as the repository's entity classes author it (global with
isCamera: true and no id). -/
def camGroups : List (List Binding) :=
  [[{ fragmentStage := false,
      resource := .buffer .f32 16 (some { id := none, isCamera := true, byteOffset := 0 }) }]]

/-- An f32×3 attribute with two elements. -/
def vertAttrW0 : VertexAttr :=
  { location := 0, type := .f32, size := 3, values := [1, 2, 3, 4, 5, 6] }

/-- An f32 scalar attribute with two elements. -/
def vertAttrW1 : VertexAttr :=
  { location := 1, type := .f32, size := 1, values := [7, 8] }

/-- A bind-group list with one local f32[4] slot and one camera-flagged
global f32[16] slot. -/
def c4Groups : List (List Binding) :=
  [[{ fragmentStage := false, resource := .buffer .f32 4 none },
    { fragmentStage := false,
      resource := .buffer .f32 16 (some { id := none, isCamera := true, byteOffset := 0 }) }]]

/-- State after create("a", progW) on the fresh engine. -/
def stateA : EngineState := (engineCreate initState "a" progW).1

/-- State after a second create("b", progW), which takes the clone path. -/
def stateB : EngineState := (engineCreate stateA "b" progW).1

/-- State after create("a", progE) on the fresh engine. -/
def stateE1 : EngineState := (engineCreate initState "a" progE).1

/-- State after a second create("b", progE). -/
def stateE2 : EngineState := (engineCreate stateE1 "b" progE).1

/-- State after freeEntity("b") on stateB. -/
def stateF : EngineState := (engineFreeEntity stateB "b").1

/-- stateA in the middle of a frame: the loop is running and the busy flag
is set (between the start of a tick and its tail). -/
def stateMid : EngineState := { stateA with inExecution := true, isBusy := true }

/-- stateMid after an addToScene("a") issued while the frame is busy: the
call is queued. -/
def stateQ : EngineState := (engineAddToScene stateMid "a").1

/-- stateQ after the running tick's tail: the queue is replayed once. -/
def stateT1 : EngineState := (tickTail stateQ).1

/-- stateT1 after the next full tick: the source never emptied the events
array, so the same queued call replays again. -/
def stateT2 : EngineState := (tick stateT1).1

/-! Helper lemmas. -/

theorem typeToFormat_err (t : Ty) (n : Nat)
    (h : (n = 1 ∨ n = 3) ∧ (t = .u8 ∨ t = .u16 ∨ t = .i8 ∨ t = .i16)) :
    typeToFormat t n = .error (.illegalSize n (typeFormat t)) := by
  simp [typeToFormat, h]

theorem typeToFormat_okOf (t : Ty) (n : Nat)
    (h : ¬((n = 1 ∨ n = 3) ∧ (t = .u8 ∨ t = .u16 ∨ t = .i8 ∨ t = .i16))) :
    typeToFormat t n =
      .ok (if n = 1 then typeFormat t else typeFormat t ++ "x" ++ toString n) := by
  simp only [typeToFormat, if_neg h]
  split <;> simp_all

theorem gtNat_ofNat (n m : Nat) : (JNum.ofNat n).gtNat m = decide (m < n) := by
  simp [JNum.ofNat, JNum.gtNat]

theorem iter_ofNat (n : Nat) : (JNum.ofNat n).iter = n := by
  simp [JNum.ofNat, JNum.iter]

theorem count_sortDraw (s : EngineState) (l : List Nat) (o : Nat) :
    (sortDraw s l).count o = l.count o :=
  (List.perm_insertionSort _ l).count_eq o

/-! Claim C7 — illegal component-count/type combinations. -/

/-- C7: for every component count in {1, 3} combined with an 8- or 16-bit
integer component type, vertex-format derivation fails with a type error;
for every legal combination among counts 1–4, count 1 yields the bare
scalar tag and counts 2, 3, 4 append the count. -/
theorem C7_typeToFormat (t : Ty) (n : Nat)
    (_hn : n = 1 ∨ n = 2 ∨ n = 3 ∨ n = 4) :
    ((n = 1 ∨ n = 3) ∧ (t = .u8 ∨ t = .u16 ∨ t = .i8 ∨ t = .i16) →
      typeToFormat t n = .error (.illegalSize n (typeFormat t))) ∧
    (¬((n = 1 ∨ n = 3) ∧ (t = .u8 ∨ t = .u16 ∨ t = .i8 ∨ t = .i16)) →
      typeToFormat t n =
        .ok (if n = 1 then typeFormat t else typeFormat t ++ "x" ++ toString n)) :=
  ⟨typeToFormat_err t n, typeToFormat_okOf t n⟩

/-- C7 witness: u16 with count 3 is rejected, f32 with count 3 gets the
count-appended tag. -/
theorem C7_typeToFormat_witness :
    ((3 : Nat) = 1 ∨ (3 : Nat) = 2 ∨ (3 : Nat) = 3 ∨ (3 : Nat) = 4) ∧
    typeToFormat .u16 3 = .error (.illegalSize 3 "uint16") ∧
    typeToFormat .f32 3 = .ok "float32x3" :=
  ⟨by decide,
   (C7_typeToFormat .u16 3 (by decide)).1 (by decide),
   by simpa using (C7_typeToFormat .f32 3 (by decide)).2 (by decide)⟩

/-! Claim C6 — index synthesis and index-width selection. -/

/-- C6, amended: for every compile with vertex element count n, empty index
input synthesizes exactly [0, 1, ..., n-1] with a warning; the selected
width is 16-bit iff n ≤ 65535 and 32-bit iff n > 65535; the buffer is
allocated with (number of indices) × (selected width in bytes) bytes; and
the uploaded content is the index list with each value reduced to the
selected width (modulo 2^16 or 2^32) — not necessarily the indices
themselves. -/
theorem C6_createIndexBuffer (indices : List Int) (n c : Nat) :
    ((createIndexBuffer indices (JNum.ofNat n) c).1.indicesOut =
       (if indices = [] then (List.range n).map Int.ofNat else indices)) ∧
    ((createIndexBuffer indices (JNum.ofNat n) c).1.warned = (indices = [])) ∧
    ((createIndexBuffer indices (JNum.ofNat n) c).1.idxType = "uint16" ↔ n ≤ 65535) ∧
    ((createIndexBuffer indices (JNum.ofNat n) c).1.idxType = "uint32" ↔ 65535 < n) ∧
    ((createIndexBuffer indices (JNum.ofNat n) c).1.buffer.size =
       JNum.ofNat ((createIndexBuffer indices (JNum.ofNat n) c).1.indicesOut.length *
         (if n ≤ 65535 then 2 else 4))) ∧
    ((createIndexBuffer indices (JNum.ofNat n) c).1.vertexCount =
       (createIndexBuffer indices (JNum.ofNat n) c).1.indicesOut.length) ∧
    ((createIndexBuffer indices (JNum.ofNat n) c).1.data =
       (createIndexBuffer indices (JNum.ofNat n) c).1.indicesOut.map
         (toUint (if n ≤ 65535 then 2 else 4))) := by
  have hlen : (indices.length = 0) = (indices = []) := by
    simp [List.length_eq_zero]
  by_cases hn : n ≤ 65535
  · simp [createIndexBuffer, gtNat_ofNat, iter_ofNat, hlen, Nat.not_lt.mpr hn, hn]
  · simp [createIndexBuffer, gtNat_ofNat, iter_ofNat, hlen, Nat.lt_of_not_le hn, hn]

/-- C6 witness: with 4 vertex elements and no indices, the synthesized list
is [0,1,2,3], a warning is emitted, the width is 16-bit and 8 bytes are
allocated. -/
theorem C6_createIndexBuffer_witness :
    (createIndexBuffer [] (JNum.ofNat 4) 0).1.indicesOut = [0, 1, 2, 3] ∧
    (createIndexBuffer [] (JNum.ofNat 4) 0).1.warned = true ∧
    (createIndexBuffer [] (JNum.ofNat 4) 0).1.idxType = "uint16" ∧
    (createIndexBuffer [] (JNum.ofNat 4) 0).1.buffer.size = JNum.ofNat 8 := by
  have h := C6_createIndexBuffer [] 4 0
  refine ⟨?_, ?_, ?_, ?_⟩
  · simpa using h.1
  · simpa using h.2.1
  · exact h.2.2.1.mpr (by decide)
  · simpa using h.2.2.2.2.1

/-- C6 counterexample to the claim as stated: a compile call whose vertex
element count selects the 16-bit width uploads the supplied index 70000 as
70000 mod 2^16 = 4464, not as 70000. -/
theorem C6_truncation_counterexample :
    ((createProgram { progW with indices := [70000] } 0 0).toOption.map
       fun r => r.1.indexData) = some [(4464 : Int)] ∧
    (4464 : Int) ≠ 70000 := by
  constructor
  · decide
  · decide

/-! Claim C2 — freeEntity and ownership of the destroyed uniform buffer. -/

/-- C2: the code destroys the shared entry holder's uniform buffer instead
of the freed entity's own.  After create("a"), create("b") (clone path) and
freeEntity("b"), the destruction log holds exactly buffer 1 — entity "a"'s
uniform buffer — while "b"'s own buffer 10 was never destroyed, refuting
"destroys that entity's own per-entity uniform buffer (never a buffer
belonging to another entity)". -/
theorem C2_freeEntity_destroys_holders_buffer :
    (engineFreeEntity stateB "b").2 = none ∧
    assocGet stateB.idExecMap "a" = some (8, shaderKey progW) ∧
    assocGet stateB.idExecMap "b" = some (12, shaderKey progW) ∧
    (assocGet stateB.heap 8).map Exec.uniformBuffer =
      some (some { id := 1, size := JNum.ofNat 16 }) ∧
    (assocGet stateB.heap 12).map Exec.uniformBuffer =
      some (some { id := 10, size := JNum.ofNat 16 }) ∧
    stateF.destroyed = [1] ∧
    (10 : Nat) ∉ stateF.destroyed := by
  refine ⟨by decide, by decide, by decide, by decide, by decide, by decide, by decide⟩

/-! Claim C3 — queued calls are replayed on every later frame. -/

/-- C3: the pending-events array is never emptied (gpu-engine.js keeps
pushing to #events and only iterates it), so an addToScene queued during a
busy frame executes after that frame and then again after every subsequent
frame: the entity appears once after the first tick tail and twice after
the next tick, while the queue still holds the call. -/
theorem C3_queued_call_replayed_every_frame :
    stateQ.events = [.addToScene "a"] ∧
    stateQ.drawList = [] ∧
    stateT1.drawList = [8] ∧
    stateT1.events = [.addToScene "a"] ∧
    stateT2.drawList = [8, 8] ∧
    stateT2.events = [.addToScene "a"] := by
  refine ⟨by decide, by decide, by decide, by decide, by decide, by decide⟩

/-! Claim C8 — operations on an id whose creation is still in flight. -/

/-- C8, amended: on the fresh-compile path, the synchronous prefix of
create(id, p) marks id pending, so freeEntity / addToScene / update /
removeFromScene issued for the same id while compilation is in flight take
the wait branch instead of throwing; on the clone path the id is not
marked pending and such calls throw the unknown-id error. -/
theorem C8_pending_wait_fresh_path (s : EngineState) (id : String) (p : Program)
    (hbusy : s.isBusy = false)
    (hid : assocGet s.idExecMap id = none)
    (hfresh : assocGet s.codeExecMap (shaderKey p) = none) :
    (createStart s id p).isPending.contains id = true ∧
    guardOutcome (createStart s id p) id = .waits := by
  have hmid : createStart s id p = { s with isPending := id :: s.isPending } := by
    simp [createStart, hbusy, hid, hfresh]
  rw [hmid]
  constructor
  · simp [List.contains_cons]
  · simp [guardOutcome, hbusy, hid, List.contains_cons]

/-- C8 witness: on the fresh engine, a fresh-path create of "x" leaves "x"
pending and the shared guard waits. -/
theorem C8_pending_wait_fresh_path_witness :
    initState.isBusy = false ∧
    assocGet initState.idExecMap "x" = none ∧
    assocGet initState.codeExecMap (shaderKey progW) = none ∧
    ((createStart initState "x" progW).isPending.contains "x" = true ∧
     guardOutcome (createStart initState "x" progW) "x" = .waits) :=
  ⟨by decide, by decide, by decide,
   C8_pending_wait_fresh_path initState "x" progW (by decide) (by decide) (by decide)⟩

/-- C8 counterexample to the claim as stated: after create("a", progW) has
registered the shaderId, an in-flight create("b", progW) takes the clone
path, whose synchronous prefix records nothing; the shared guard then
classifies "b" as unknown-id, i.e. a freeEntity/addToScene/update/
removeFromScene issued before the clone finishes throws instead of
waiting. -/
theorem C8_clone_path_counterexample :
    (assocGet stateA.codeExecMap (shaderKey progW)).isSome = true ∧
    createStart stateA "b" progW = stateA ∧
    guardOutcome (createStart stateA "b" progW) "b" = .unknownId := by
  refine ⟨by decide, by decide, by decide⟩

/-! Claim C9 — stop leaves the engine busy until draw restarts the loop. -/

/-- C9: a tick that observes the cleared running flag returns with isBusy
still true and unchanged events; on that state every mutating call only
appends its record to the pending queue (with no other state change), and
draw() — no longer seeing the running flag — restarts the loop rather than
returning early. -/
theorem C9_stop_leaves_busy (s : EngineState) (h : s.inExecution = false) :
    tick s = ({ s with isBusy := true }, false) ∧
    (∀ id p, engineCreate { s with isBusy := true } id p =
      ({ s with isBusy := true, events := s.events ++ [.create id p] }, none)) ∧
    (∀ id, engineFreeEntity { s with isBusy := true } id =
      ({ s with isBusy := true, events := s.events ++ [.freeEntity id] }, none)) ∧
    (∀ id, engineAddToScene { s with isBusy := true } id =
      ({ s with isBusy := true, events := s.events ++ [.addToScene id] }, none)) ∧
    (∀ id, engineRemoveFromScene { s with isBusy := true } id =
      ({ s with isBusy := true, events := s.events ++ [.removeFromScene id] }, none)) ∧
    (∀ id g b r z, engineUpdate { s with isBusy := true } id g b r z =
      ({ s with isBusy := true, events := s.events ++ [.update id g b r z] }, none)) ∧
    (∀ bid t sz, engineCreateGlobalBuffer { s with isBusy := true } bid t sz =
      ({ s with isBusy := true, events := s.events ++ [.createGlobalBuffer bid t sz] }, none)) ∧
    (∀ bid off t v, engineWriteGlobalBuffer { s with isBusy := true } bid off t v false =
      ({ s with isBusy := true,
                events := s.events ++ [.writeGlobalBuffer bid off t v] }, none)) ∧
    (∀ sc cam v, engineCreateCamera { s with isBusy := true } sc cam v =
      ({ s with isBusy := true, events := s.events ++ [.createCamera sc cam v] }, none)) ∧
    (∀ sc cam v, engineUpdateCamera { s with isBusy := true } sc cam v =
      ({ s with isBusy := true, events := s.events ++ [.updateCamera sc cam v] }, none)) ∧
    drawCall { s with isBusy := true } =
      tick { s with isBusy := true, inExecution := true } := by
  refine ⟨?_, ?_, ?_, ?_, ?_, ?_, ?_, ?_, ?_, ?_, ?_⟩
  · simp [tick, tickTail, h]
  · intro id p; simp [engineCreate, queueEvent]
  · intro id; simp [engineFreeEntity, queueEvent]
  · intro id; simp [engineAddToScene, queueEvent]
  · intro id; simp [engineRemoveFromScene, queueEvent]
  · intro id g b r z; simp [engineUpdate, queueEvent]
  · intro bid t sz; simp [engineCreateGlobalBuffer, queueEvent]
  · intro bid off t v; simp [engineWriteGlobalBuffer, queueEvent]
  · intro sc cam v; simp [engineCreateCamera, queueEvent]
  · intro sc cam v; simp [engineUpdateCamera, queueEvent]
  · simp [drawCall, h]

/-- C9 witness: the stopped stateA (running flag off) gets stuck busy and
queues a concrete freeEntity. -/
theorem C9_stop_leaves_busy_witness :
    stateA.inExecution = false ∧
    tick stateA = ({ stateA with isBusy := true }, false) ∧
    engineFreeEntity { stateA with isBusy := true } "a" =
      ({ stateA with isBusy := true, events := stateA.events ++ [.freeEntity "a"] }, none) :=
  ⟨by decide,
   (C9_stop_leaves_busy stateA (by decide)).1,
   (C9_stop_leaves_busy stateA (by decide)).2.2.1 "a"⟩

/-! Claim C10 — addToScene has no duplicate check. -/

/-- C10: two addToScene calls for the same registered id in the Idle state
insert the entity's executable into the draw list twice (so it is drawn
twice per frame), and one removeFromScene then removes only the first
matching occurrence, leaving one copy. -/
theorem addToScene_ok (s : EngineState) (id : String) (o : Nat) (sid : String)
    (hbusy : s.isBusy = false)
    (hid : assocGet s.idExecMap id = some (o, sid)) :
    engineAddToScene s id =
      ({ s with drawList := sortDraw s (s.drawList ++ [o]) }, none) := by
  simp [engineAddToScene, pendingGuard, hbusy, hid]

theorem removeFromScene_ok (s : EngineState) (id : String) (o : Nat) (sid : String)
    (hbusy : s.isBusy = false)
    (hid : assocGet s.idExecMap id = some (o, sid)) :
    engineRemoveFromScene s id =
      ({ s with drawList := s.drawList.erase o }, none) := by
  simp [engineRemoveFromScene, pendingGuard, hbusy, hid]

/-- C10: two addToScene calls for the same registered id in the Idle state
insert the entity's executable into the draw list twice (so it is drawn
twice per frame), and one removeFromScene then removes only the first
matching occurrence, leaving one copy. -/
theorem C10_addToScene_duplicates (s : EngineState) (id : String) (o : Nat)
    (sid : String)
    (hbusy : s.isBusy = false)
    (hid : assocGet s.idExecMap id = some (o, sid))
    (h0 : s.drawList.count o = 0) :
    ∃ s1 s2 s3,
      engineAddToScene s id = (s1, none) ∧
      engineAddToScene s1 id = (s2, none) ∧
      s2.drawList.count o = 2 ∧
      engineRemoveFromScene s2 id = (s3, none) ∧
      s3.drawList.count o = 1 := by
  refine ⟨_, _, _, addToScene_ok s id o sid hbusy hid,
    addToScene_ok _ id o sid hbusy hid, ?_,
    removeFromScene_ok _ id o sid hbusy hid, ?_⟩
  · simp [count_sortDraw, List.count_append, h0]
  · simp [List.count_erase_self, count_sortDraw, List.count_append, h0]

/-- C10 witness: on stateA (entity "a" registered, empty draw list), two
addToScene("a") and one removeFromScene("a") leave exactly one copy. -/
theorem C10_addToScene_duplicates_witness :
    stateA.isBusy = false ∧
    assocGet stateA.idExecMap "a" = some (8, shaderKey progW) ∧
    stateA.drawList.count 8 = 0 ∧
    (∃ s1 s2 s3,
      engineAddToScene stateA "a" = (s1, none) ∧
      engineAddToScene s1 "a" = (s2, none) ∧
      s2.drawList.count 8 = 2 ∧
      engineRemoveFromScene s2 "a" = (s3, none) ∧
      s3.drawList.count 8 = 1) :=
  ⟨by decide, by decide, by decide,
   C10_addToScene_duplicates stateA "a" 8 (shaderKey progW)
     (by decide) (by decide) (by decide)⟩

/-! Claim C4 — uniform-buffer sizing and local offsets. -/

theorem foldl_add_map {α : Type} (f : α → Nat) :
    ∀ (l : List α) (s : Nat), l.foldl (fun acc b => acc + f b) s = s + (l.map f).sum
  | [], s => by simp
  | b :: l, s => by
    simp [List.foldl_cons, foldl_add_map f l, Nat.add_assoc]

theorem uniformSize_eq (groups : List (List Binding)) :
    uniformSize groups = (groups.flatten.map bindingLocal).sum := by
  have step : ∀ (gs : List (List Binding)) (s : Nat),
      gs.foldl (fun s g => g.foldl (fun s b => s + bindingLocal b) s) s =
        s + (gs.flatten.map bindingLocal).sum := by
    intro gs
    induction gs with
    | nil => intro s; simp
    | cons h t iht =>
      intro s
      rw [List.foldl_cons, foldl_add_map, iht]
      simp [Nat.add_assoc]
  simpa using step groups 0

theorem sizesSum_cons (p : Ty × Nat) (t : List (Ty × Nat)) :
    sizesSum (p :: t) = byteWidth p.1 * p.2 + sizesSum t := by
  simp [sizesSum]

theorem packDescs_append (xs ys : List (Ty × Nat)) :
    ∀ off, packDescs off (xs ++ ys) =
      packDescs off xs ++ packDescs (off + sizesSum xs) ys := by
  induction xs with
  | nil => intro off; simp [packDescs, sizesSum]
  | cons x t ih =>
    intro off
    show packDescs off (x :: (t ++ ys)) = _
    rw [packDescs, packDescs, ih, sizesSum_cons]
    simp [Nat.add_assoc]

theorem updAt_length : ∀ (u : List (List UDesc)) (i : Nat) (d : UDesc),
    (updAt u i d).length = u.length
  | [], _, _ => rfl
  | _ :: gs, 0, d => by simp [updAt]
  | g :: gs, n + 1, d => by simp [updAt, updAt_length gs n d]

theorem updAt_drop : ∀ (u : List (List UDesc)) (i : Nat) (d : UDesc),
    (updAt u i d).drop (i + 1) = u.drop (i + 1)
  | [], _, _ => rfl
  | _ :: gs, 0, d => by simp [updAt]
  | g :: gs, n + 1, d => by simp [updAt, updAt_drop gs n d]

theorem updAt_flatten : ∀ (u : List (List UDesc)) (i : Nat) (d : UDesc),
    i < u.length → (∀ g ∈ u.drop (i + 1), g = []) →
    (updAt u i d).flatten = u.flatten ++ [d]
  | [], i, d, hi, _ => by simp at hi
  | g :: gs, 0, d, _, hd => by
    have : gs.flatten = [] := List.flatten_eq_nil_iff.mpr (by simpa using hd)
    simp [updAt, this]
  | g :: gs, n + 1, d, hi, hd => by
    have ih := updAt_flatten gs n d (by simpa using hi) (by simpa using hd)
    simp [updAt, ih]

/-- The uniforms.push([]) step shared by every binding: the bucket list
grows by one empty bucket, flatten unchanged, empty-suffix preserved. -/
theorem push_empty_props (u : List (List UDesc)) (i : Nat)
    (hi : i ≤ u.length) (hd : ∀ g ∈ u.drop (i + 1), g = []) :
    i < (u ++ [[]]).length ∧ (∀ g ∈ (u ++ [[]]).drop (i + 1), g = []) ∧
    (u ++ [[]]).flatten = u.flatten := by
  refine ⟨by simp; omega, ?_, by simp⟩
  intro g hg
  rw [List.drop_append_eq_append_drop] at hg
  rcases List.mem_append.mp hg with h | h
  · exact hd g h
  · have := List.mem_of_mem_drop h
    simpa using this

/-- One binding step of the bind-group loop: the uniforms array grows by one
bucket; the value-slot stream grows by the slot's descriptor exactly for
local buffer slots, at the running offset; the offset advances by that
slot's byte size; the counter never decreases; the suffix of untouched
buckets stays empty. -/
theorem bgBinding_props (i : Nat) (u : List (List UDesc)) (off c : Nat)
    (b : Binding) (hi : i ≤ u.length) (hd : ∀ g ∈ u.drop (i + 1), g = []) :
    (bgBinding i (u, off, c) b).1.flatten.filterMap bufSel =
        u.flatten.filterMap bufSel ++ packDescs off ((slotSel b).toList) ∧
    (bgBinding i (u, off, c) b).2.1 = off + sizesSum ((slotSel b).toList) ∧
    (bgBinding i (u, off, c) b).1.length = u.length + 1 ∧
    (∀ g ∈ (bgBinding i (u, off, c) b).1.drop (i + 1), g = []) ∧
    c ≤ (bgBinding i (u, off, c) b).2.2 := by
  obtain ⟨hp1, hp2, hp3⟩ := push_empty_props u i hi hd
  have hupd : ∀ d : UDesc,
      (updAt (u ++ [[]]) i d).flatten = u.flatten ++ [d] ∧
      (updAt (u ++ [[]]) i d).length = u.length + 1 ∧
      (∀ g ∈ (updAt (u ++ [[]]) i d).drop (i + 1), g = []) := by
    intro d
    refine ⟨?_, ?_, ?_⟩
    · rw [updAt_flatten (u ++ [[]]) i d hp1 hp2, hp3]
    · rw [updAt_length]; simp
    · rw [updAt_drop]; exact hp2
  obtain ⟨st, r⟩ := b
  cases r with
  | buffer t n g =>
    cases g with
    | none =>
      have heq : bgBinding i (u, off, c) ⟨st, .buffer t n none⟩ =
          (updAt (u ++ [[]]) i (.buf off (byteWidth t * n) t),
           off + byteWidth t * n, c) := rfl
      obtain ⟨h1, h2, h3⟩ := hupd (.buf off (byteWidth t * n) t)
      rw [heq]
      refine ⟨?_, ?_, h2, h3, le_refl c⟩
      · rw [h1, List.filterMap_append]
        simp [slotSel, packDescs, bufSel, List.filterMap]
      · simp [slotSel, sizesSum]
    | some gr =>
      have heq : bgBinding i (u, off, c) ⟨st, .buffer t n (some gr)⟩ =
          (u ++ [[]], off, c) := rfl
      rw [heq]
      refine ⟨?_, ?_, by simp, hp2, le_refl c⟩
      · rw [hp3]
        simp [slotSel, packDescs]
      · simp [slotSel, sizesSum]
  | texture img w h ox oy =>
    have heq : bgBinding i (u, off, c) ⟨st, .texture img w h ox oy⟩ =
        (updAt (u ++ [[]]) i (.tex (w - ox) (h - oy) c), off, c + 1) := rfl
    obtain ⟨h1, h2, h3⟩ := hupd (.tex (w - ox) (h - oy) c)
    rw [heq]
    refine ⟨?_, ?_, h2, h3, Nat.le_succ c⟩
    · rw [h1, List.filterMap_append]
      simp [slotSel, packDescs, bufSel, List.filterMap]
    · simp [slotSel, sizesSum]
  | sampler =>
    have heq : bgBinding i (u, off, c) ⟨st, .sampler⟩ =
        (updAt (u ++ [[]]) i .smp, off, c + 1) := rfl
    obtain ⟨h1, h2, h3⟩ := hupd .smp
    rw [heq]
    refine ⟨?_, ?_, h2, h3, Nat.le_succ c⟩
    · rw [h1, List.filterMap_append]
      simp [slotSel, packDescs, bufSel, List.filterMap]
    · simp [slotSel, sizesSum]

/-- Folding the bindings of one group accumulates, in binding order, one
packed descriptor per local buffer slot. -/
theorem bgFold_props (i : Nat) :
    ∀ (g : List Binding) (u : List (List UDesc)) (off c : Nat),
      i ≤ u.length → (∀ x ∈ u.drop (i + 1), x = []) →
      (g.foldl (bgBinding i) (u, off, c)).1.flatten.filterMap bufSel =
          u.flatten.filterMap bufSel ++ packDescs off (g.filterMap slotSel) ∧
      (g.foldl (bgBinding i) (u, off, c)).2.1 = off + sizesSum (g.filterMap slotSel) ∧
      (g.foldl (bgBinding i) (u, off, c)).1.length = u.length + g.length ∧
      (∀ x ∈ (g.foldl (bgBinding i) (u, off, c)).1.drop (i + 1), x = []) ∧
      c ≤ (g.foldl (bgBinding i) (u, off, c)).2.2
  | [], u, off, c, hi, hd => by
    refine ⟨by simp [packDescs], by simp [sizesSum], by simp, hd, le_refl c⟩
  | b :: g, u, off, c, hi, hd => by
    obtain ⟨hb1, hb2, hb3, hb4, hb5⟩ := bgBinding_props i u off c b hi hd
    have hsplit : bgBinding i (u, off, c) b =
        ((bgBinding i (u, off, c) b).1,
         (bgBinding i (u, off, c) b).2.1, (bgBinding i (u, off, c) b).2.2) := rfl
    obtain ⟨ih1, ih2, ih3, ih4, ih5⟩ := bgFold_props i g (bgBinding i (u, off, c) b).1
      (bgBinding i (u, off, c) b).2.1 (bgBinding i (u, off, c) b).2.2
      (by omega) hb4
    rw [List.foldl_cons, hsplit] at *
    refine ⟨?_, ?_, ?_, ih4, le_trans hb5 ih5⟩
    · rw [ih1, hb1, hb2, List.filterMap_cons]
      cases hsel : slotSel b with
      | none =>
        simp only [hsel, Option.toList]
        simp [packDescs, sizesSum]
      | some p =>
        simp only [hsel, Option.toList]
        have hpk : packDescs off (p :: g.filterMap slotSel) =
            packDescs off [p] ++ packDescs (off + sizesSum [p]) (g.filterMap slotSel) := by
          have := packDescs_append [p] (g.filterMap slotSel) off
          simpa using this
        rw [hpk]
        simp [packDescs, List.append_assoc]
    · rw [ih2, hb2, List.filterMap_cons]
      cases hsel : slotSel b with
      | none => simp [hsel, Option.toList, sizesSum]
      | some p =>
        simp only [hsel, Option.toList]
        rw [sizesSum_cons]
        simp [sizesSum, Nat.add_assoc]
    · rw [ih3, hb3]
      simp [Nat.add_assoc, Nat.add_comm, Nat.add_left_comm]

/-- The group loop packs the local buffer slots of all groups consecutively
from the running offset, provided every group is non-empty (an empty group
would crash the source's uniforms[i] indexing). -/
theorem bgGroups_flatten : ∀ (gs : List (List Binding)) (i : Nat)
    (u : List (List UDesc)) (off c : Nat),
    i ≤ u.length → (∀ x ∈ u.drop (i + 1), x = []) → (∀ g ∈ gs, g ≠ []) →
    (bgGroups gs i u off c).2.1.flatten.filterMap bufSel =
      u.flatten.filterMap bufSel ++ packDescs off (gs.flatten.filterMap slotSel)
  | [], i, u, off, c, hi, hd, hne => by simp [bgGroups, packDescs]
  | g :: gs, i, u, off, c, hi, hd, hne => by
    obtain ⟨hf1, hf2, hf3, hf4, hf5⟩ := bgFold_props i g u off c hi hd
    have hglen : 1 ≤ g.length := by
      have hg := hne g (by simp)
      cases g with
      | nil => simp at hg
      | cons a t => simp
    have hd2 : ∀ x ∈ (g.foldl (bgBinding i) (u, off, c)).1.drop (i + 1 + 1), x = [] := by
      intro x hx
      apply hf4
      have hdd : (g.foldl (bgBinding i) (u, off, c)).1.drop (i + 1 + 1) =
          ((g.foldl (bgBinding i) (u, off, c)).1.drop (i + 1)).drop 1 := by
        rw [List.drop_drop]
      rw [hdd] at hx
      exact List.mem_of_mem_drop hx
    have hi2 : i + 1 ≤ (g.foldl (bgBinding i) (u, off, c)).1.length := by
      rw [hf3]; omega
    have ih := bgGroups_flatten gs (i + 1) (g.foldl (bgBinding i) (u, off, c)).1
      (g.foldl (bgBinding i) (u, off, c)).2.1
      ((g.foldl (bgBinding i) (u, off, c)).2.2 + 1)
      hi2 hd2 (fun x hx => hne x (by simp [hx]))
    have hgoal : (bgGroups (g :: gs) i u off c).2.1 =
        (bgGroups gs (i + 1) (g.foldl (bgBinding i) (u, off, c)).1
          (g.foldl (bgBinding i) (u, off, c)).2.1
          ((g.foldl (bgBinding i) (u, off, c)).2.2 + 1)).2.1 := rfl
    rw [hgoal, ih, hf1, hf2]
    have hfl : (g :: gs).flatten.filterMap slotSel =
        g.filterMap slotSel ++ gs.flatten.filterMap slotSel := by
      simp [List.filterMap_append]
    rw [hfl, packDescs_append]
    simp [List.append_assoc, sizesSum]

theorem C4_bufDescs (groups : List (List Binding)) (c : Nat)
    (hne : groups ≠ []) (hg : ∀ g ∈ groups, g ≠ []) :
    bufDescs (createBindGroup groups c).2.1 = packDescs 0 (localBufSlots groups) := by
  have hlen : ¬groups.length = 0 := by
    cases groups with
    | nil => simp at hne
    | cons a t => simp
  unfold createBindGroup bufDescs localBufSlots
  rw [if_neg hlen]
  have := bgGroups_flatten groups 0 [] 0 c (by simp) (by simp) hg
  simpa using this

theorem bindingLocal_eq_amended (b : Binding) :
    bindingLocal b = (match b.resource with
      | .buffer t n none => byteWidth t * n
      | .buffer t n (some gr) => if gr.id = none then byteWidth t * n else 0
      | _ => 0) := by
  obtain ⟨st, r⟩ := b
  cases r with
  | buffer t n g =>
    cases g with
    | none => simp [bindingLocal, getBufferLocalSize, getBufferSize]
    | some gr =>
      by_cases h : gr.id = none <;>
        simp [bindingLocal, getBufferLocalSize, getBufferSize, h]
  | texture img w h ox oy => simp [bindingLocal]
  | sampler => simp [bindingLocal]

/-- C4, amended: for every descriptor with non-empty, non-degenerate bind
groups, the per-entity uniform buffer allocated by compile and by clone has
byte size equal to the sum of component_count × component_byte_width over
the buffer slots that are either not flagged global or whose global
reference carries no buffer id (the camera-flagged slot as authored has no
id, so it does contribute to the size); local byte offsets are still
assigned only to the slots with no global flag at all, packed consecutively
in declaration order. -/
theorem C4_uniform_sizing (groups : List (List Binding)) (c c2 : Nat)
    (hne : groups ≠ []) (hg : ∀ g ∈ groups, g ≠ []) :
    (createUniformBuffer groups c).1 =
      some { id := c, size := JNum.ofNat (amendedUniformSize groups) } ∧
    bufDescs (createBindGroup groups c2).2.1 = packDescs 0 (localBufSlots groups) ∧
    (∀ p ex cc z, p.groups = groups →
      ((cloneProgram p ex cc z).1).uniformBuffer =
        (createUniformBuffer groups (createGroupLayout groups cc)).1) ∧
    (∀ p cc z ex c' z', p.groups = groups → createProgram p cc z = .ok (ex, c', z') →
      ex.uniformBuffer = (createUniformBuffer groups (createGroupLayout groups cc)).1) := by
  have hlen : ¬groups.length = 0 := by
    cases groups with
    | nil => simp at hne
    | cons a t => simp
  have hsum : uniformSize groups = amendedUniformSize groups := by
    rw [uniformSize_eq, amendedUniformSize]
    congr 1
    exact List.map_congr_left fun b _ => bindingLocal_eq_amended b
  refine ⟨?_, C4_bufDescs groups c2 hne hg, ?_, ?_⟩
  · simp [createUniformBuffer, hlen, hsum]
  · intro p ex cc z hpg
    simp [cloneProgram, hpg]
  · intro p cc z ex c' z' hpg hok
    simp only [createProgram, hpg] at hok
    rcases hu : createUniformBuffer groups (createGroupLayout groups cc) with ⟨ub, cu⟩
    rw [hu] at hok
    rcases hvb : createVertexBuffer p.vertexDescriptor cu with e | ⟨vb, c3⟩
    · rw [hvb] at hok
      simp at hok
    · rw [hvb] at hok
      simp only [Except.ok.injEq, Prod.mk.injEq] at hok
      rw [← hok.1]

/-- C4 counterexample to the claim as stated: a single camera-flagged
global f32[16] slot (authored with no id) yields an allocated uniform
buffer size of 64 bytes, while the claim's sum over non-global slots is
0. -/
theorem C4_camera_slot_counterexample :
    (createUniformBuffer camGroups 0).1 =
      some { id := 0, size := JNum.ofNat 64 } ∧
    specNonGlobalSize camGroups = 0 ∧
    JNum.ofNat 64 ≠ JNum.ofNat 0 := by
  refine ⟨by decide, by decide, by decide⟩

/-- C4 witness: one local f32[4] slot plus one camera-flagged f32[16] slot:
the allocated size is 16 + 64 = 80 bytes and only the local slot receives
an offset (0). -/
theorem C4_uniform_sizing_witness :
    c4Groups ≠ [] ∧ (∀ g ∈ c4Groups, g ≠ []) ∧
    (createUniformBuffer c4Groups 0).1 =
      some { id := 0, size := JNum.ofNat (amendedUniformSize c4Groups) } ∧
    amendedUniformSize c4Groups = 80 ∧
    bufDescs (createBindGroup c4Groups 0).2.1 = packDescs 0 (localBufSlots c4Groups) ∧
    packDescs 0 (localBufSlots c4Groups) = [.buf 0 16 .f32] :=
  ⟨by decide, by decide,
   (C4_uniform_sizing c4Groups 0 0 (by decide) (by decide)).1,
   by decide,
   (C4_uniform_sizing c4Groups 0 0 (by decide) (by decide)).2.1,
   by decide⟩

/-! Claim C5 — vertex interleaving, stride, offsets and size mismatch. -/

theorem flatMap_congr {α β : Type} (l : List α) (f g : α → List β)
    (h : ∀ a ∈ l, f a = g a) : l.flatMap f = l.flatMap g := by
  induction l with
  | nil => simp
  | cons a t ih =>
    simp only [List.flatMap_cons]
    rw [h a (by simp), ih fun x hx => h x (by simp [hx])]

theorem eqb_of_eq_mul (a a0 : VertexAttr) (len : Nat)
    (hsa : 1 ≤ a.size) (hs0 : 1 ≤ a0.size)
    (ha : a.values.length = a.size * len) (h0 : a0.values.length = a0.size * len) :
    (elemCnt a).eqb (elemCnt a0) = true := by
  obtain ⟨d1, hd1⟩ : ∃ d1, a.size = d1 + 1 := ⟨a.size - 1, by omega⟩
  obtain ⟨d2, hd2⟩ : ∃ d2, a0.size = d2 + 1 := ⟨a0.size - 1, by omega⟩
  simp only [elemCnt, ha, h0, hd1, hd2, JNum.eqb]
  apply decide_eq_true
  push_cast
  ring

theorem eqb_false_of_ne (x a0 : VertexAttr) (len : Nat)
    (hsx : 1 ≤ x.size) (hs0 : 1 ≤ a0.size)
    (hx : x.values.length ≠ x.size * len)
    (h0 : a0.values.length = a0.size * len) :
    (elemCnt x).eqb (elemCnt a0) = false := by
  obtain ⟨d1, hd1⟩ : ∃ d1, x.size = d1 + 1 := ⟨x.size - 1, by omega⟩
  obtain ⟨d2, hd2⟩ : ∃ d2, a0.size = d2 + 1 := ⟨a0.size - 1, by omega⟩
  simp only [elemCnt, h0, hd1, hd2, JNum.eqb]
  apply decide_eq_false
  intro hcontra
  apply hx
  have h1 : (x.values.length : Int) * (d2 + 1) = ((d2 + 1) * len) * (d1 + 1) := by
    exact_mod_cast hcontra
  have h2 : (x.values.length : Int) = len * (d1 + 1) := by
    have hne : ((d2 : Int) + 1) ≠ 0 := by positivity
    apply mul_right_cancel₀ hne
    linarith [h1]
  have : x.values.length = len * (d1 + 1) := by exact_mod_cast h2
  rw [this, hd1]
  ring

theorem vbLoop_ok (len0 : JNum) : ∀ (l : List VertexAttr) (st : Nat),
    (∀ a ∈ l, (elemCnt a).eqb len0 = true) →
    (∀ a ∈ l, ¬illegalCombo a) →
    vbLoop len0 l st = .ok (attrLayout st l, st + strideOf l)
  | [], st, _, _ => by simp [vbLoop, attrLayout, strideOf]
  | d :: l, st, he, hl => by
    have hd : (elemCnt d).eqb len0 = true := he d (by simp)
    have hfmt := typeToFormat_okOf d.type d.size (hl d (by simp))
    have ih := vbLoop_ok len0 l (st + d.size * byteWidth d.type)
      (fun a ha => he a (by simp [ha])) (fun a ha => hl a (by simp [ha]))
    unfold vbLoop
    rw [if_neg (by simp [hd]), hfmt, ih]
    simp [attrLayout, strideOf, Nat.add_assoc, Nat.mul_comm]

theorem vbLoop_err (len0 : JNum) (x : VertexAttr) (suf : List VertexAttr)
    (hx : (elemCnt x).eqb len0 = false) :
    ∀ (pre : List VertexAttr) (st : Nat),
      (∀ a ∈ pre, (elemCnt a).eqb len0 = true) →
      (∀ a ∈ pre, ¬illegalCombo a) →
      vbLoop len0 (pre ++ x :: suf) st =
        .error (.sizeMismatch x.values (JNum.mulNat x.size len0))
  | [], st, _, _ => by
    rw [List.nil_append]
    show vbLoop len0 (x :: suf) st = _
    unfold vbLoop
    rw [if_pos hx]
  | d :: pre, st, he, hl => by
    have hd : (elemCnt d).eqb len0 = true := he d (by simp)
    have hfmt := typeToFormat_okOf d.type d.size (hl d (by simp))
    have ih := vbLoop_err len0 x suf hx pre (st + d.size * byteWidth d.type)
      (fun a ha => he a (by simp [ha])) (fun a ha => hl a (by simp [ha]))
    show vbLoop len0 (d :: (pre ++ x :: suf)) st = _
    unfold vbLoop
    rw [if_neg (by simp [hd]), hfmt, ih]

theorem drop_take_eq_range_map (l : List Int) :
    ∀ (n m : Nat), m + n ≤ l.length →
      (l.drop m).take n = (List.range n).map fun k => l.getD (m + k) 0
  | 0, m, _ => by simp
  | n + 1, m, h => by
    have hm : m < l.length := by omega
    have ih := drop_take_eq_range_map l n (m + 1) (by omega)
    rw [List.drop_eq_getElem_cons hm, List.range_succ_eq_map]
    simp only [List.take_succ_cons, List.map_cons, List.map_map]
    congr 1
    · rw [Nat.add_zero, List.getD_eq_getElem l 0 hm]
    · rw [ih]
      apply List.map_congr_left
      intro k _
      have harith : m + 1 + k = m + (k + 1) := by omega
      simp [Function.comp, Nat.succ_eq_add_one, harith]

theorem elemCnt_iter (a : VertexAttr) (len : Nat) (hs : 1 ≤ a.size)
    (ha : a.values.length = a.size * len) : (elemCnt a).iter = len := by
  obtain ⟨d, hd⟩ : ∃ d, a.size = d + 1 := ⟨a.size - 1, by omega⟩
  have hc : elemCnt a = ⟨(((d + 1) * len : Nat) : Int), d + 1⟩ := by
    simp only [elemCnt, ha, hd]
  rw [hc]
  show ((((d + 1) * len : Nat) : Int).toNat + d) / (d + 1) = len
  rw [Int.toNat_natCast, Nat.add_comm,
    Nat.add_mul_div_left d len (by omega : 0 < d + 1),
    Nat.div_eq_of_lt (by omega)]
  omega

theorem chainArrays_eq (a0 : VertexAttr) (rest : List VertexAttr) (len : Nat)
    (hsz : ∀ a ∈ a0 :: rest, 1 ≤ a.size)
    (hall : ∀ a ∈ a0 :: rest, a.values.length = a.size * len) :
    chainArrays (a0 :: rest) = interleaved (a0 :: rest) len := by
  have hiter := elemCnt_iter a0 len (hsz a0 (by simp)) (hall a0 (by simp))
  show chainArrays (a0 :: rest) = _
  unfold chainArrays interleaved
  simp only [hiter]
  apply flatMap_congr
  intro i hi
  have hi' : i < len := List.mem_range.mp hi
  apply flatMap_congr
  intro a ha
  have hlen : a.values.length = a.size * len := hall a ha
  have hrange : i * a.size + a.size ≤ a.values.length := by
    rw [hlen]
    have hmul : (i + 1) * a.size ≤ len * a.size :=
      Nat.mul_le_mul_right a.size (by omega)
    calc i * a.size + a.size = (i + 1) * a.size := by ring
    _ ≤ len * a.size := hmul
    _ = a.size * len := by ring
  unfold elementSlice
  rw [drop_take_eq_range_map a.values a.size (i * a.size) hrange, List.map_map]
  apply List.map_congr_left
  intro k _
  simp [Function.comp, Nat.add_comm]

/-- C5, amended: for every non-empty attribute list whose component counts
are at least 1 and whose type/count combinations are legal for vertex-format
derivation: if every attribute's element count equals the first attribute's
element count len, composition succeeds with stride the sum of
component_count × byte_width in descriptor order, per-attribute offsets
equal to the running stride, returned element count len, buffer byte size
stride × len, and element-major interleaved little-endian content; if
instead some attribute's element count differs from len, the operation
fails with a size-mismatch error naming the offending attribute's values
and the expected length len × component_count.  (As stated the claim also
covers illegal type/count combinations, where composition fails with a
type error instead of succeeding — see the counterexample.) -/
theorem C5_vertex_composition (a0 : VertexAttr) (rest : List VertexAttr)
    (len c : Nat)
    (hsz : ∀ a ∈ a0 :: rest, 1 ≤ a.size)
    (hleg : ∀ a ∈ a0 :: rest, ¬illegalCombo a)
    (h0 : a0.values.length = a0.size * len) :
    ((∀ a ∈ a0 :: rest, a.values.length = a.size * len) →
      createVertexBuffer (a0 :: rest) c =
        .ok (vbExpected (a0 :: rest) a0 len c, c + 1) ∧
      (elemCnt a0).toQ = (len : ℚ) ∧
      (JNum.mulNat (strideOf (a0 :: rest)) (elemCnt a0)).toQ =
        ((strideOf (a0 :: rest) : ℚ) * len)) ∧
    (∀ pre x suf, a0 :: rest = pre ++ x :: suf →
      (∀ a ∈ pre, a.values.length = a.size * len) →
      x.values.length ≠ x.size * len →
      createVertexBuffer (a0 :: rest) c =
        .error (.sizeMismatch x.values (JNum.mulNat x.size (elemCnt a0))) ∧
      (JNum.mulNat x.size (elemCnt a0)).toQ = ((x.size : ℚ) * len)) := by
  have hs0 : 1 ≤ a0.size := hsz a0 (by simp)
  have hpos0 : 0 < a0.size := hs0
  have hszq : ((a0.size : ℚ)) ≠ 0 := by
    have hpos : (0 : ℚ) < a0.size := by exact_mod_cast hpos0
    exact ne_of_gt hpos
  have htoQ : (elemCnt a0).toQ = (len : ℚ) := by
    simp only [elemCnt, h0, JNum.toQ, Rat.mkRat_eq_div]
    push_cast
    exact mul_div_cancel_left₀ _ hszq
  have hmulQ : ∀ k : Nat, (JNum.mulNat k (elemCnt a0)).toQ = ((k : ℚ) * len) := by
    intro k
    simp only [elemCnt, h0, JNum.mulNat, JNum.toQ, Rat.mkRat_eq_div]
    push_cast
    field_simp
    ring
  constructor
  · intro hall
    have heqb : ∀ a ∈ a0 :: rest, (elemCnt a).eqb (elemCnt a0) = true := by
      intro a ha
      exact eqb_of_eq_mul a a0 len (hsz a ha) hs0 (hall a ha) h0
    refine ⟨?_, htoQ, hmulQ _⟩
    show createVertexBuffer (a0 :: rest) c = _
    simp only [createVertexBuffer]
    rw [vbLoop_ok (elemCnt a0) (a0 :: rest) 0 heqb hleg,
      chainArrays_eq a0 rest len hsz hall]
    simp [vbExpected, strideOf]
  · intro pre x suf hdecomp hpre hxne
    have hmemx : x ∈ a0 :: rest := by rw [hdecomp]; simp
    have hxeqb : (elemCnt x).eqb (elemCnt a0) = false :=
      eqb_false_of_ne x a0 len (hsz x hmemx) hs0 hxne h0
    have hpreeqb : ∀ a ∈ pre, (elemCnt a).eqb (elemCnt a0) = true := by
      intro a ha
      have hmem : a ∈ a0 :: rest := by
        rw [hdecomp]; exact List.mem_append.mpr (.inl ha)
      exact eqb_of_eq_mul a a0 len (hsz a hmem) hs0 (hpre a ha) h0
    have hpreleg : ∀ a ∈ pre, ¬illegalCombo a := by
      intro a ha
      exact hleg a (by rw [hdecomp]; exact List.mem_append.mpr (.inl ha))
    refine ⟨?_, hmulQ _⟩
    show createVertexBuffer (a0 :: rest) c = _
    simp only [createVertexBuffer]
    rw [hdecomp, vbLoop_err (elemCnt a0) x suf hxeqb pre 0 hpreeqb hpreleg]

/-- C5 counterexample to the claim as stated: a single uint8×3 attribute
with consistent element counts (3 values, count 3, one element) does not
compose successfully — it fails with the type error of the format
derivation, not with success and not with a size-mismatch error. -/
theorem C5_illegal_format_counterexample :
    createVertexBuffer [{ location := 0, type := .u8, size := 3, values := [1, 2, 3] }] 0 =
      .error (.illegalSize 3 "uint8") := by
  decide

/-- C5 witness: an f32×3 position attribute and an f32×1 scalar attribute,
two elements each: stride 16, offsets 0 and 12, 32-byte buffer, interleaved
element-major content, and the size facts in ℚ. -/
theorem C5_vertex_composition_witness :
    (∀ a ∈ (vertAttrW0 :: [vertAttrW1]), 1 ≤ a.size) ∧
    (∀ a ∈ (vertAttrW0 :: [vertAttrW1]), ¬illegalCombo a) ∧
    vertAttrW0.values.length = vertAttrW0.size * 2 ∧
    createVertexBuffer [vertAttrW0, vertAttrW1] 0 =
      .ok (vbExpected [vertAttrW0, vertAttrW1] vertAttrW0 2 0, 1) ∧
    (elemCnt vertAttrW0).toQ = (2 : ℚ) :=
  have h := C5_vertex_composition vertAttrW0 [vertAttrW1] 2 0
    (by decide) (by decide) (by decide)
  ⟨by decide, by decide, by decide, (h.1 (by decide)).1, (h.1 (by decide)).2.1⟩

/-! Claim C1 — deduplication, sharing and reference counting of create. -/

theorem assocGet_set_self {α β : Type} [DecidableEq α]
    (l : List (α × β)) (k : α) (v : β) : assocGet (assocSet l k v) k = some v := by
  induction l with
  | nil => simp [assocSet, assocGet]
  | cons p t ih =>
    by_cases h : p.1 = k
    · simp [assocSet, assocGet, h]
    · obtain ⟨a, b⟩ := p
      simp only at h
      simp [assocSet, assocGet, h, ih]

theorem assocGet_set_ne {α β : Type} [DecidableEq α]
    (l : List (α × β)) (k k' : α) (v : β) (hk : k' ≠ k) :
    assocGet (assocSet l k v) k' = assocGet l k' := by
  have hk2 : ¬(k = k') := fun hh => hk hh.symm
  induction l with
  | nil => simp [assocSet, assocGet, hk2]
  | cons p t ih =>
    obtain ⟨a, b⟩ := p
    by_cases h : a = k
    · subst h
      simp [assocSet, assocGet, hk2]
    · simp only [assocSet, if_neg h]
      by_cases h' : a = k'
      · simp [assocGet, h']
      · simp [assocGet, h', ih]

theorem bgBinding_mono (i : Nat) (st : List (List UDesc) × Nat × Nat) (b : Binding) :
    st.2.2 ≤ (bgBinding i st b).2.2 := by
  obtain ⟨u, off, c⟩ := st
  obtain ⟨s, r⟩ := b
  cases r with
  | buffer t n g => cases g <;> simp [bgBinding]
  | texture img w h ox oy => simp [bgBinding]
  | sampler => simp [bgBinding]

theorem bgFold_mono (i : Nat) :
    ∀ (g : List Binding) (st : List (List UDesc) × Nat × Nat),
      st.2.2 ≤ (g.foldl (bgBinding i) st).2.2
  | [], st => le_refl _
  | b :: g, st => by
    rw [List.foldl_cons]
    exact le_trans (bgBinding_mono i st b) (bgFold_mono i g _)

theorem bgGroups_bounds : ∀ (gs : List (List Binding)) (i : Nat)
    (u : List (List UDesc)) (off c : Nat),
    c ≤ (bgGroups gs i u off c).2.2 ∧
    (∀ hh ∈ (bgGroups gs i u off c).1, c ≤ hh ∧ hh < (bgGroups gs i u off c).2.2)
  | [], i, u, off, c => by simp [bgGroups]
  | g :: gs, i, u, off, c => by
    have hm : c ≤ (g.foldl (bgBinding i) (u, off, c)).2.2 :=
      bgFold_mono i g (u, off, c)
    obtain ⟨ih1, ih2⟩ := bgGroups_bounds gs (i + 1) (g.foldl (bgBinding i) (u, off, c)).1
      (g.foldl (bgBinding i) (u, off, c)).2.1 ((g.foldl (bgBinding i) (u, off, c)).2.2 + 1)
    have hfst : (bgGroups (g :: gs) i u off c).1 =
        (g.foldl (bgBinding i) (u, off, c)).2.2 ::
          (bgGroups gs (i + 1) (g.foldl (bgBinding i) (u, off, c)).1
            (g.foldl (bgBinding i) (u, off, c)).2.1
            ((g.foldl (bgBinding i) (u, off, c)).2.2 + 1)).1 := rfl
    have hsnd : (bgGroups (g :: gs) i u off c).2.2 =
        (bgGroups gs (i + 1) (g.foldl (bgBinding i) (u, off, c)).1
          (g.foldl (bgBinding i) (u, off, c)).2.1
          ((g.foldl (bgBinding i) (u, off, c)).2.2 + 1)).2.2 := rfl
    rw [hfst, hsnd]
    refine ⟨by omega, ?_⟩
    intro hh hmem
    rcases List.mem_cons.mp hmem with h | h
    · subst h
      exact ⟨hm, by omega⟩
    · have hb := ih2 hh h
      exact ⟨by omega, hb.2⟩

theorem createBindGroup_bounds (gs : List (List Binding)) (cc : Nat) :
    cc ≤ (createBindGroup gs cc).2.2 ∧
    (∀ hh ∈ (createBindGroup gs cc).1, cc ≤ hh ∧ hh < (createBindGroup gs cc).2.2) ∧
    (gs ≠ [] → (createBindGroup gs cc).1 ≠ []) := by
  cases gs with
  | nil => simp [createBindGroup]
  | cons g t =>
    have hb := bgGroups_bounds (g :: t) 0 [] 0 cc
    have hne : ¬(g :: t).length = 0 := by simp
    constructor
    · simpa [createBindGroup, hne] using hb.1
    constructor
    · simpa [createBindGroup, hne] using hb.2
    · intro _
      simp only [createBindGroup, if_neg hne]
      have : (bgGroups (g :: t) 0 [] 0 cc).1 =
          (g.foldl (bgBinding 0) ([], 0, cc)).2.2 ::
            (bgGroups t 1 (g.foldl (bgBinding 0) ([], 0, cc)).1
              (g.foldl (bgBinding 0) ([], 0, cc)).2.1
              ((g.foldl (bgBinding 0) ([], 0, cc)).2.2 + 1)).1 := rfl
      rw [this]
      simp

theorem createUniformBuffer_props (gs : List (List Binding)) (cc : Nat) :
    cc ≤ (createUniformBuffer gs cc).2 ∧
    (∀ b, (createUniformBuffer gs cc).1 = some b →
      b.id = cc ∧ cc < (createUniformBuffer gs cc).2) ∧
    (gs ≠ [] → ∃ b, (createUniformBuffer gs cc).1 = some b) := by
  by_cases h : gs.length = 0
  · have hnil : gs = [] := List.length_eq_zero.mp h
    simp [createUniformBuffer, h, hnil]
  · have hcub : createUniformBuffer gs cc =
        (some { id := cc, size := JNum.ofNat (uniformSize gs) }, cc + 1) := by
      simp [createUniformBuffer, h]
    rw [hcub]
    refine ⟨Nat.le_succ cc, ?_, fun _ => ⟨_, rfl⟩⟩
    intro b hb
    simp only [Option.some.injEq] at hb
    rw [← hb]
    exact ⟨rfl, Nat.lt_succ_self cc⟩

theorem createVertexBuffer_mono (vd : List VertexAttr) (cc : Nat) (vb : VBResult)
    (c3 : Nat) (h : createVertexBuffer vd cc = .ok (vb, c3)) : cc ≤ c3 := by
  cases vd with
  | nil =>
    simp only [createVertexBuffer, Except.ok.injEq, Prod.mk.injEq] at h
    omega
  | cons d0 t =>
    simp only [createVertexBuffer] at h
    rcases hvl : vbLoop (elemCnt d0) (d0 :: t) 0 with e | ⟨attrs, stride⟩ <;>
      rw [hvl] at h
    · simp at h
    · simp only [Except.ok.injEq, Prod.mk.injEq] at h
      omega

theorem indexBuffer_ctr (indices : List Int) (size : JNum) (c : Nat) :
    (createIndexBuffer indices size c).2 = c + 1 := rfl

theorem createProgram_ok_props (p : Program) (c z : Nat) (ex : Exec) (c' z' : Nat)
    (h : createProgram p c z = .ok (ex, c', z')) :
    c ≤ c' ∧ ex.oid < c' ∧
    (∀ b, ex.uniformBuffer = some b → b.id < c') ∧
    (∀ hh ∈ ex.bindGroups, hh < c') ∧
    (p.groups ≠ [] → (∃ b, ex.uniformBuffer = some b) ∧ ex.bindGroups ≠ []) := by
  simp only [createProgram] at h
  rcases hu : createUniformBuffer p.groups (createGroupLayout p.groups c)
    with ⟨ub, cu⟩
  rw [hu] at h
  rcases hvb : createVertexBuffer p.vertexDescriptor cu with e | ⟨vb, c3⟩ <;>
    rw [hvb] at h
  · simp at h
  · simp only [Except.ok.injEq, Prod.mk.injEq] at h
    obtain ⟨hex, hc', _⟩ := h
    have hub := createUniformBuffer_props p.groups (createGroupLayout p.groups c)
    rw [hu] at hub
    have hvm := createVertexBuffer_mono p.vertexDescriptor cu vb c3 hvb
    have hbg := createBindGroup_bounds p.groups c3
    have hib := indexBuffer_ctr p.indices vb.size (createBindGroup p.groups c3).2.2
    rw [hib] at hex hc'
    have hlay : c ≤ createGroupLayout p.groups c := Nat.le_add_right c p.groups.length
    refine ⟨by omega, ?_, ?_, ?_, ?_⟩
    · rw [← hex, ← hc']
      simp
    · intro b hb
      rw [← hex] at hb
      simp at hb
      have := hub.2.1 b hb
      omega
    · intro hh hmem
      rw [← hex] at hmem
      simp at hmem
      have := hbg.2.1 hh hmem
      omega
    · intro hgs
      obtain ⟨b, hb⟩ := hub.2.2 hgs
      refine ⟨⟨b, ?_⟩, ?_⟩
      · rw [← hex]; simpa using hb
      · rw [← hex]
        simpa using hbg.2.2 hgs

theorem cloneProgram_props (p : Program) (ex : Exec) (c z : Nat) :
    c ≤ (cloneProgram p ex c z).2.1 ∧
    c ≤ (cloneProgram p ex c z).1.oid ∧
    (cloneProgram p ex c z).1.oid < (cloneProgram p ex c z).2.1 ∧
    (∀ b, (cloneProgram p ex c z).1.uniformBuffer = some b → c ≤ b.id) ∧
    (∀ hh ∈ (cloneProgram p ex c z).1.bindGroups, c ≤ hh) ∧
    (cloneProgram p ex c z).1.pipeline = ex.pipeline ∧
    (cloneProgram p ex c z).1.vertexBuffer = ex.vertexBuffer ∧
    (cloneProgram p ex c z).1.indexBuffer = ex.indexBuffer ∧
    (cloneProgram p ex c z).1.idxType = ex.idxType ∧
    (cloneProgram p ex c z).1.vertexCount = ex.vertexCount ∧
    (p.groups ≠ [] → (∃ b, (cloneProgram p ex c z).1.uniformBuffer = some b) ∧
      (cloneProgram p ex c z).1.bindGroups ≠ []) := by
  have hlay : c ≤ createGroupLayout p.groups c := Nat.le_add_right c p.groups.length
  have hub := createUniformBuffer_props p.groups (createGroupLayout p.groups c)
  have hbg := createBindGroup_bounds p.groups
    (createUniformBuffer p.groups (createGroupLayout p.groups c)).2
  have hshape : cloneProgram p ex c z =
      ({ ex with
          oid := (createBindGroup p.groups
            (createUniformBuffer p.groups (createGroupLayout p.groups c)).2).2.2,
          z := z,
          bindGroups := (createBindGroup p.groups
            (createUniformBuffer p.groups (createGroupLayout p.groups c)).2).1,
          uniforms := (createBindGroup p.groups
            (createUniformBuffer p.groups (createGroupLayout p.groups c)).2).2.1,
          uniformBuffer := (createUniformBuffer p.groups
            (createGroupLayout p.groups c)).1 },
        (createBindGroup p.groups
          (createUniformBuffer p.groups (createGroupLayout p.groups c)).2).2.2 + 1,
        z + 1) := rfl
  rw [hshape]
  refine ⟨by simp; omega, by simp; omega, by simp, ?_, ?_, by simp, by simp, by simp,
    by simp, by simp, ?_⟩
  · intro b hb
    simp at hb
    have := hub.2.1 b hb
    omega
  · intro hh hmem
    simp at hmem
    have := hbg.2.1 hh hmem
    omega
  · intro hgs
    obtain ⟨b, hb⟩ := hub.2.2 hgs
    refine ⟨⟨b, by simpa using hb⟩, by simpa using hbg.2.2 hgs⟩

theorem engineCreate_fresh (s : EngineState) (id : String) (p : Program)
    (ex : Exec) (c' z' : Nat)
    (hbusy : s.isBusy = false)
    (hid : assocGet s.idExecMap id = none)
    (hfresh : assocGet s.codeExecMap (shaderKey p) = none)
    (hcp : createProgram p s.ctr s.zctr = .ok (ex, c', z')) :
    engineCreate s id p =
      ({ s with heap := assocSet s.heap ex.oid ex,
                idExecMap := assocSet s.idExecMap id (ex.oid, shaderKey p),
                codeExecMap := assocSet s.codeExecMap (shaderKey p)
                  { oid := ex.oid, count := 1 },
                isPending := s.isPending.erase id,
                ctr := c', zctr := z' }, none) := by
  simp [engineCreate, hbusy, hid, hfresh, hcp]

theorem engineCreate_clone (s : EngineState) (id : String) (p : Program)
    (ref : RefEntry) (ex : Exec)
    (hbusy : s.isBusy = false)
    (hid : assocGet s.idExecMap id = none)
    (href : assocGet s.codeExecMap (shaderKey p) = some ref)
    (hheap : assocGet s.heap ref.oid = some ex) :
    engineCreate s id p =
      ({ s with heap := assocSet s.heap (cloneProgram p ex s.ctr s.zctr).1.oid
                  (cloneProgram p ex s.ctr s.zctr).1,
                idExecMap := assocSet s.idExecMap id
                  ((cloneProgram p ex s.ctr s.zctr).1.oid, shaderKey p),
                codeExecMap := assocSet s.codeExecMap (shaderKey p)
                  { ref with count := ref.count + 1 },
                ctr := (cloneProgram p ex s.ctr s.zctr).2.1,
                zctr := (cloneProgram p ex s.ctr s.zctr).2.2 }, none) := by
  simp [engineCreate, hbusy, hid, href, hheap]

/-- C1, amended: two create calls in the Idle state with distinct ids and
the same descriptor (whose shaderId is not yet cached) both register their
id; the second takes the clone path, sharing the first call's pipeline,
vertex buffer and index buffer verbatim (allocating no new ones); the
shared entry's reference count is 1 after the first call and 2 after the
second; and — provided the descriptor's bind-group list is non-empty — the
two ids hold distinct uniform buffers and disjoint bind groups.  (With no
bind groups, neither id has a uniform buffer or bind groups; see the
counterexample.) -/
theorem C1_create_dedup (s : EngineState) (id1 id2 : String) (p : Program)
    (s1 s2 : EngineState)
    (hids : id1 ≠ id2)
    (hidle : s.isBusy = false)
    (hfresh : assocGet s.codeExecMap (shaderKey p) = none)
    (hgroups : p.groups ≠ [])
    (h1 : engineCreate s id1 p = (s1, none))
    (h2 : engineCreate s1 id2 p = (s2, none)) :
    ∃ o1 o2 ex1 ex2 b1 b2,
      assocGet s2.idExecMap id1 = some (o1, shaderKey p) ∧
      assocGet s2.idExecMap id2 = some (o2, shaderKey p) ∧
      assocGet s2.heap o1 = some ex1 ∧
      assocGet s2.heap o2 = some ex2 ∧
      assocGet s1.codeExecMap (shaderKey p) = some { oid := o1, count := 1 } ∧
      assocGet s2.codeExecMap (shaderKey p) = some { oid := o1, count := 2 } ∧
      ex2.pipeline = ex1.pipeline ∧
      ex2.vertexBuffer = ex1.vertexBuffer ∧
      ex2.indexBuffer = ex1.indexBuffer ∧
      ex2.idxType = ex1.idxType ∧
      ex2.vertexCount = ex1.vertexCount ∧
      ex1.uniformBuffer = some b1 ∧
      ex2.uniformBuffer = some b2 ∧
      b1.id ≠ b2.id ∧
      ex1.bindGroups ≠ [] ∧
      ex2.bindGroups ≠ [] ∧
      (∀ hh ∈ ex2.bindGroups, hh ∉ ex1.bindGroups) := by
  by_cases hid1 : (assocGet s.idExecMap id1).isSome
  · have hbad : engineCreate s id1 p = (s, some (.idInUse id1)) := by
      simp [engineCreate, hidle, hid1]
    rw [hbad] at h1
    simp at h1
  · have hid1n : assocGet s.idExecMap id1 = none :=
      Option.not_isSome_iff_eq_none.mp hid1
    rcases hcp : createProgram p s.ctr s.zctr with e | ⟨ex, c', z'⟩
    · have hbad : engineCreate s id1 p =
          ({ s with isPending := id1 :: s.isPending }, some (.render e)) := by
        simp [engineCreate, hidle, hid1n, hfresh, hcp]
      rw [hbad] at h1
      simp at h1
    · have hE1 := engineCreate_fresh s id1 p ex c' z' hidle hid1n hfresh hcp
      rw [hE1] at h1
      have hs1 : ({ s with
                    heap := assocSet s.heap ex.oid ex,
                    idExecMap := assocSet s.idExecMap id1 (ex.oid, shaderKey p),
                    codeExecMap := assocSet s.codeExecMap (shaderKey p)
                      { oid := ex.oid, count := 1 },
                    isPending := s.isPending.erase id1,
                    ctr := c', zctr := z' } : EngineState) = s1 :=
        congrArg Prod.fst h1
      obtain ⟨hcp1, hcp2, hcp3, hcp4, hcp5⟩ :=
        createProgram_ok_props p s.ctr s.zctr ex c' z' hcp
      obtain ⟨hb1, hb1g⟩ := hcp5 hgroups
      obtain ⟨b1, hb1'⟩ := hb1
      by_cases hid2 : (assocGet s1.idExecMap id2).isSome
      · have hbad : engineCreate s1 id2 p = (s1, some (.idInUse id2)) := by
          have hbusy1 : s1.isBusy = false := by rw [← hs1]; exact hidle
          simp [engineCreate, hbusy1, hid2]
        rw [hbad] at h2
        simp at h2
      · have hid2n : assocGet s1.idExecMap id2 = none :=
          Option.not_isSome_iff_eq_none.mp hid2
        have hbusy1 : s1.isBusy = false := by rw [← hs1]; exact hidle
        have href : assocGet s1.codeExecMap (shaderKey p) =
            some { oid := ex.oid, count := 1 } := by
          rw [← hs1]
          exact assocGet_set_self _ _ _
        have hheap1 : assocGet s1.heap ex.oid = some ex := by
          rw [← hs1]
          exact assocGet_set_self _ _ _
        have hE2 := engineCreate_clone s1 id2 p { oid := ex.oid, count := 1 } ex
          hbusy1 hid2n href hheap1
        rw [hE2] at h2
        have hs2 : ({ s1 with
                      heap := assocSet s1.heap (cloneProgram p ex s1.ctr s1.zctr).1.oid
                        (cloneProgram p ex s1.ctr s1.zctr).1,
                      idExecMap := assocSet s1.idExecMap id2
                        ((cloneProgram p ex s1.ctr s1.zctr).1.oid, shaderKey p),
                      codeExecMap := assocSet s1.codeExecMap (shaderKey p)
                        { oid := ex.oid, count := 1 + 1 },
                      ctr := (cloneProgram p ex s1.ctr s1.zctr).2.1,
                      zctr := (cloneProgram p ex s1.ctr s1.zctr).2.2 } : EngineState) = s2 :=
          congrArg Prod.fst h2
        obtain ⟨hcl1, hcl2, hcl3, hcl4, hcl5, hclp, hclv, hcli, hclt, hclc, hcln⟩ :=
          cloneProgram_props p ex s1.ctr s1.zctr
        obtain ⟨hb2, hb2g⟩ := hcln hgroups
        obtain ⟨b2, hb2'⟩ := hb2
        have hctr1 : s1.ctr = c' := by rw [← hs1]
        have hoid_lt : ex.oid < c' := hcp2
        have hoid2_ge : c' ≤ (cloneProgram p ex s1.ctr s1.zctr).1.oid := by
          rw [← hctr1]; exact hcl2
        have hoid_ne : ex.oid ≠ (cloneProgram p ex s1.ctr s1.zctr).1.oid := by omega
        refine ⟨ex.oid, (cloneProgram p ex s1.ctr s1.zctr).1.oid, ex,
          (cloneProgram p ex s1.ctr s1.zctr).1, b1, b2, ?_, ?_, ?_, ?_, ?_, ?_,
          hclp, hclv, hcli, hclt, hclc, hb1', hb2', ?_, hb1g, hb2g, ?_⟩
        · rw [← hs2]
          show assocGet (assocSet s1.idExecMap id2 _) id1 = _
          rw [assocGet_set_ne _ _ _ _ hids, ← hs1]
          show assocGet (assocSet s.idExecMap id1 _) id1 = _
          exact assocGet_set_self _ _ _
        · rw [← hs2]
          exact assocGet_set_self _ _ _
        · rw [← hs2]
          show assocGet (assocSet s1.heap _ _) ex.oid = _
          rw [assocGet_set_ne _ _ _ _ hoid_ne]
          exact hheap1
        · rw [← hs2]
          exact assocGet_set_self _ _ _
        · exact href
        · rw [← hs2]
          exact assocGet_set_self _ _ _
        · have hb1lt : b1.id < c' := hcp3 b1 hb1'
          have hb2ge : c' ≤ b2.id := by
            have := hcl4 b2 hb2'
            omega
          omega
        · intro hh hmem hmem1
          have hge : c' ≤ hh := by
            have := hcl5 hh hmem
            omega
          have hlt : hh < c' := hcp4 hh hmem1
          omega

/-- C1 counterexample to the claim as stated: with an empty bind-group
list, two create calls with the same descriptor both succeed, but neither
entity holds any uniform buffer or bind group — both uniform buffers are
the same absent value and both bind-group lists are empty, so the claimed
distinctness fails. -/
theorem C1_empty_groups_counterexample :
    (engineCreate initState "a" progE).2 = none ∧
    (engineCreate stateE1 "b" progE).2 = none ∧
    assocGet stateE2.idExecMap "a" = some (4, shaderKey progE) ∧
    assocGet stateE2.idExecMap "b" = some (5, shaderKey progE) ∧
    (assocGet stateE2.heap 4).map Exec.uniformBuffer = some none ∧
    (assocGet stateE2.heap 5).map Exec.uniformBuffer = some none ∧
    (assocGet stateE2.heap 4).map Exec.bindGroups = some [] ∧
    (assocGet stateE2.heap 5).map Exec.bindGroups = some [] := by
  refine ⟨by decide, by decide, by decide, by decide, by decide, by decide,
    by decide, by decide⟩

/-- C1 witness: create("a", progW) then create("b", progW) on the fresh
engine exercises the fresh-compile path followed by the clone path. -/
theorem C1_create_dedup_witness :
    "a" ≠ "b" ∧ initState.isBusy = false ∧
    assocGet initState.codeExecMap (shaderKey progW) = none ∧
    progW.groups ≠ [] ∧
    engineCreate initState "a" progW = (stateA, none) ∧
    engineCreate stateA "b" progW = (stateB, none) ∧
    (∃ o1 o2 ex1 ex2 b1 b2,
      assocGet stateB.idExecMap "a" = some (o1, shaderKey progW) ∧
      assocGet stateB.idExecMap "b" = some (o2, shaderKey progW) ∧
      assocGet stateB.heap o1 = some ex1 ∧
      assocGet stateB.heap o2 = some ex2 ∧
      assocGet stateA.codeExecMap (shaderKey progW) = some { oid := o1, count := 1 } ∧
      assocGet stateB.codeExecMap (shaderKey progW) = some { oid := o1, count := 2 } ∧
      ex2.pipeline = ex1.pipeline ∧
      ex2.vertexBuffer = ex1.vertexBuffer ∧
      ex2.indexBuffer = ex1.indexBuffer ∧
      ex2.idxType = ex1.idxType ∧
      ex2.vertexCount = ex1.vertexCount ∧
      ex1.uniformBuffer = some b1 ∧
      ex2.uniformBuffer = some b2 ∧
      b1.id ≠ b2.id ∧
      ex1.bindGroups ≠ [] ∧
      ex2.bindGroups ≠ [] ∧
      (∀ hh ∈ ex2.bindGroups, hh ∉ ex1.bindGroups)) :=
  ⟨by decide, by decide, by decide, by decide, by decide, by decide,
   C1_create_dedup initState "a" "b" progW stateA stateB (by decide) (by decide)
     (by decide) (by decide) (by decide) (by decide)⟩

end DWgpu
